import Mathlib

/-!
# Verification of the Canvas-todoist-sync reconciliation logic

Shallow embedding of the two script variants of the repository:

* `src/Lambda/Main_Lambda.py` — the Lambda variant (`Lambda` namespace below):
  state-file based identity (`load_synced_tasks`/`save_synced_tasks`),
  due-fingerprint change detection (`get_due_string`), one-pass sync
  (`sync_once`).
* `src/Main.py` — the CLI variant (`CLI` namespace below): marker-based
  identity, content rendering with description truncation
  (`create_task_for_event` / `update_task_for_event`), the `main` loop.

Python dicts are modelled as association lists with Python's dict semantics
(assignment replaces the value in place, otherwise appends; `del` removes the
key; insertion order preserved).  Python `datetime`/`date` objects are
modelled by the inductive `DT`; fixed-offset timezones are modelled as an
offset in seconds.  HTTP effects are modelled as a trace of `SinkCall`s
(one entry per `requests` call attempted), with failure behaviour of each
call injected through boolean-valued failure functions.
-/

set_option autoImplicit false

universe u v

/-! ## Association-list model of Python dicts -/

variable {α : Type u} {β : Type v}

/-! ## Definitions -/

/-- `d[k]` lookup (`None`-returning form, i.e. `d.get(k)` / `k in d` tests). -/
def dget? [DecidableEq α] : List (α × β) → α → Option β
  | [], _ => none
  | (k, v) :: t, a => if k = a then some v else dget? t a

/-- `d[k] = v`: replace the value at the first occurrence of `k`, else append. -/
def dinsert [DecidableEq α] : List (α × β) → α → β → List (α × β)
  | [], a, b => [(a, b)]
  | (k, v) :: t, a, b => if k = a then (a, b) :: t else (k, v) :: dinsert t a b

/-- `del d[k]`: remove the first occurrence of key `k`. -/
def derase [DecidableEq α] : List (α × β) → α → List (α × β)
  | [], _ => []
  | (k, v) :: t, a => if k = a then t else (k, v) :: derase t a

/-- `list(d.keys())`. -/
def dkeys (m : List (α × β)) : List α :=
  m.map Prod.fst

/-- Well-formedness of a dict model: keys occur at most once
(always true of an actual Python dict). -/
def dwf (m : List (α × β)) : Prop :=
  (dkeys m).Nodup

instance [DecidableEq α] (m : List (α × β)) : Decidable (dwf m) := by
  unfold dwf; infer_instance

/-! ## Python `date` / `datetime` model

`DT.date` models `datetime.date`, `DT.datetime` models `datetime.datetime`
(fields, microseconds, and an optional fixed-offset timezone in seconds;
`tz = none` is a naive datetime).  The `isinstance(dt, datetime)` /
`isinstance(dt, date)` dispatch of the source corresponds to the two
constructors (`datetime` is checked first in both scripts, so the
constructors are disjoint exactly like the branches). -/

inductive DT where
  | date (y m d : Int)
  | datetime (y m d hh mi ss : Int) (micro : Nat) (tz : Option Int)
  deriving DecidableEq

/-- Civil (proleptic Gregorian) date-time fields after timezone handling. -/
structure Civil where
  y : Int
  m : Int
  d : Int
  hh : Int
  mi : Int
  ss : Int
  deriving DecidableEq

/-- Days since 1970-01-01 of a civil date (the arithmetic underlying
Python's `datetime` ordinal conversions). -/
def daysFromCivil (y m d : Int) : Int :=
  let y2 := if m ≤ 2 then y - 1 else y
  let era := Int.fdiv y2 400
  let yoe := y2 - era * 400
  let mp := Int.emod (m + 9) 12
  let doy := (153 * mp + 2) / 5 + d - 1
  let doe := yoe * 365 + yoe / 4 - yoe / 100 + doy
  era * 146097 + doe - 719468

/-- Civil date from days since 1970-01-01 (inverse of `daysFromCivil`). -/
def civilFromDays (z0 : Int) : Int × Int × Int :=
  let z := z0 + 719468
  let era := Int.fdiv z 146097
  let doe := z - era * 146097
  let yoe := (doe - doe / 1460 + doe / 36524 - doe / 146096) / 365
  let y := yoe + era * 400
  let doy := doe - (365 * yoe + yoe / 4 - yoe / 100)
  let mp := (5 * doy + 2) / 153
  let d := doy - (153 * mp + 2) / 5 + 1
  let m := mp + (if mp < 10 then 3 else -9)
  (if m ≤ 2 then y + 1 else y, m, d)

/-- `dt.astimezone(timezone.utc)` for an aware datetime (`tz = some off`),
`dt.replace(tzinfo=timezone.utc)` for a naive one (`tz = none`) — the
two branches of the timezone normalization used by the Lambda variant. -/
def toUTC (y m d hh mi ss : Int) (tz : Option Int) : Civil :=
  match tz with
  | none => ⟨y, m, d, hh, mi, ss⟩
  | some off =>
      let total := daysFromCivil y m d * 86400 + hh * 3600 + mi * 60 + ss - off
      let days := Int.fdiv total 86400
      let rem := total - days * 86400
      let c := civilFromDays days
      ⟨c.1, c.2.1, c.2.2, rem / 3600, Int.emod rem 3600 / 60, Int.emod rem 60⟩

/-- Zero-padded decimal rendering (`%02d`-style field padding). -/
def padNum (w : Nat) (n : Nat) : String :=
  let s := toString n
  String.mk (List.replicate (w - s.length) '0') ++ s

/-- `date.isoformat()`, also `strftime("%Y-%m-%d")`: `YYYY-MM-DD`. -/
def isoDate (y m d : Int) : String :=
  padNum 4 y.toNat ++ "-" ++ padNum 2 m.toNat ++ "-" ++ padNum 2 d.toNat

/-- The `YYYY-MM-DDTHH:MM:SS` part shared by `datetime.isoformat()` and
`strftime("%Y-%m-%dT%H:%M:%S...")`. -/
def basicDT (c : Civil) : String :=
  isoDate c.y c.m c.d ++ "T" ++ padNum 2 c.hh.toNat ++ ":" ++ padNum 2 c.mi.toNat
    ++ ":" ++ padNum 2 c.ss.toNat

/-- `datetime.isoformat()` of a UTC-aware datetime: microseconds printed
only when nonzero, offset rendered as `+00:00`. -/
def isoformatUTC (c : Civil) (micro : Nat) : String :=
  basicDT c ++ (if micro = 0 then "" else "." ++ padNum 6 micro) ++ "+00:00"

/-- `strftime("%Y-%m-%dT%H:%M:%SZ")`: second precision, literal `Z`. -/
def strftimeZ (c : Civil) : String :=
  basicDT c ++ "Z"

namespace Lambda

/-- `get_due_string` (src/Lambda/Main_Lambda.py lines 40-48): the due
fingerprint.  A `datetime` is normalized to UTC and rendered with
`isoformat()`; a `date` with `isoformat()`; anything else gives `None`. -/
def get_due_string : Option DT → Option String
  | some (DT.datetime y m d hh mi ss micro tz) =>
      some (isoformatUTC (toUTC y m d hh mi ss tz) micro)
  | some (DT.date y m d) => some (isoDate y m d)
  | none => none

/-- The dictionary built by `format_due_payload`: `{}`, `{"due_datetime": s}`
or `{"due_date": s}`. -/
inductive DuePayload where
  | empty
  | due_datetime (s : String)
  | due_date (s : String)
  deriving DecidableEq

/-- `format_due_payload` (src/Lambda/Main_Lambda.py lines 50-59): the
Todoist API due payload.  A `datetime` is normalized to UTC and rendered
with `strftime("%Y-%m-%dT%H:%M:%SZ")`; a `date` with `strftime("%Y-%m-%d")`. -/
def format_due_payload : Option DT → DuePayload
  | some (DT.datetime y m d hh mi ss _ tz) =>
      DuePayload.due_datetime (strftimeZ (toUTC y m d hh mi ss tz))
  | some (DT.date y m d) => DuePayload.due_date (isoDate y m d)
  | none => DuePayload.empty

/-- One parsed VEVENT as built by `fetch_ical_events`
(src/Lambda/Main_Lambda.py lines 61-73): uid, summary, and the `DTSTART`
value (`None` when the component has no `DTSTART`). -/
structure Event where
  uid : String
  summary : String
  start : Option DT
  deriving DecidableEq

/-- One entry of the synced-tasks state file:
`{"task_id": "...", "due": "..."}` (due may be `None`). -/
structure Record where
  task_id : String
  due : Option String
  deriving DecidableEq

/-- The persisted state `{ ical_uid : {"task_id", "due"} }`. -/
abbrev IdentitySet := List (String × Record)

/-- `event_uids_map = {e["uid"]: e for e in events}` (line 121):
duplicate uids collapse to the last-seen event. -/
def event_uids_map (events : List Event) : List (String × Event) :=
  events.foldl (fun m e => dinsert m e.uid e) []

/-! ### The diff classification of one pass

`sync_once` (lines 117-161) classifies each uid as follows: a uid of a
current event that is not a key of the state is created (line 131); a uid
that is a key with a differing stored due fingerprint is updated
(line 140); a key of the state that is not among the seen event uids is
deleted (line 151); everything else is unchanged. -/

/-- `uid not in synced_tasks` (line 131). -/
def createEligible (S : IdentitySet) (p : String × Event) : Bool :=
  (dget? S p.1).isNone

/-- `synced_tasks[uid].get("due") != event_due_str` (line 140). -/
def updateEligible (S : IdentitySet) (p : String × Event) : Bool :=
  match dget? S p.1 with
  | some r => decide (r.due ≠ get_due_string p.2.start)
  | none => false

/-- Key of the state with an equal stored due fingerprint. -/
def unchangedEligible (S : IdentitySet) (p : String × Event) : Bool :=
  match dget? S p.1 with
  | some r => decide (r.due = get_due_string p.2.start)
  | none => false

/-- Uids classified to-create: event uid not a key of the prior state. -/
def toCreate (events : List Event) (S : IdentitySet) : List String :=
  ((event_uids_map events).filter (createEligible S)).map Prod.fst

/-- Uids classified to-update: event uid a key of the prior state whose
stored due fingerprint differs from the current one. -/
def toUpdate (events : List Event) (S : IdentitySet) : List String :=
  ((event_uids_map events).filter (updateEligible S)).map Prod.fst

/-- Uids of current events that are keys of the prior state with an equal
stored due fingerprint (the implicit "unchanged" bucket). -/
def unchangedUids (events : List Event) (S : IdentitySet) : List String :=
  ((event_uids_map events).filter (unchangedEligible S)).map Prod.fst

/-- Uids classified to-delete: keys of the prior state absent from the
current event uids (`set(synced_tasks.keys()) - seen_uids`, line 151). -/
def toDelete (events : List Event) (S : IdentitySet) : List String :=
  (dkeys S).filter (fun u => decide (u ∉ dkeys (event_uids_map events)))

/-- Environment of one pass: which sink calls fail (a failed HTTP call is
an exception caught by the per-item `except` blocks of `sync_once`), and
the task id the Todoist create endpoint returns (`new_task["id"]`),
both keyed by the event uid being processed. -/
structure Cfg where
  createFails : String → Bool
  updateFails : String → Bool
  deleteFails : String → Bool
  newTaskId : String → String

/-- One attempted HTTP call to the task sink (a `requests.post` /
`requests.delete` issued by `create_task`, `update_task_due_date` or
`delete_task`), tagged with the uid being processed. -/
inductive SinkCall where
  | create (uid : String)
  | update (uid : String) (task_id : String)
  | delete (uid : String) (task_id : String)
  deriving DecidableEq

/-- The uid a sink call was issued for. -/
def SinkCall.uidOf : SinkCall → String
  | .create u => u
  | .update u _ => u
  | .delete u _ => u

/-- The mutable state of one `sync_once` pass: the synced-tasks dict, the
three counters, the `ERROR:` prints (operation, uid), and the trace of
attempted sink calls. -/
structure PassSt where
  synced : IdentitySet
  created : Nat
  updated : Nat
  deleted : Nat
  errors : List (String × String)
  calls : List SinkCall
  deriving DecidableEq

/-- Body of the create/update loop of `sync_once`
(src/Lambda/Main_Lambda.py lines 127-148) for one `(uid, event)` item.
`create_task` always issues its HTTP call (so it is traced even when it
fails); `update_task_due_date` returns before any HTTP call when
`format_due_payload` is empty (lines 94-97), and only then can no
exception occur. -/
def processEvent (cfg : Cfg) (st : PassSt) (p : String × Event) : PassSt :=
  match dget? st.synced p.1 with
  | none =>
      if cfg.createFails p.1 then
        { st with calls := st.calls ++ [SinkCall.create p.1],
                  errors := st.errors ++ [("create", p.1)] }
      else
        { st with calls := st.calls ++ [SinkCall.create p.1],
                  synced := dinsert st.synced p.1
                    ⟨cfg.newTaskId p.1, get_due_string p.2.start⟩,
                  created := st.created + 1 }
  | some r =>
      if r.due ≠ get_due_string p.2.start then
        if format_due_payload p.2.start = DuePayload.empty then
          { st with synced := dinsert st.synced p.1
                      ⟨r.task_id, get_due_string p.2.start⟩,
                    updated := st.updated + 1 }
        else if cfg.updateFails p.1 then
          { st with calls := st.calls ++ [SinkCall.update p.1 r.task_id],
                    errors := st.errors ++ [("update", p.1)] }
        else
          { st with calls := st.calls ++ [SinkCall.update p.1 r.task_id],
                    synced := dinsert st.synced p.1
                      ⟨r.task_id, get_due_string p.2.start⟩,
                    updated := st.updated + 1 }
      else st

/-- Body of the deletion loop of `sync_once` (lines 152-160) for one uid of
`uids_to_delete`.  The `none` branch cannot occur (every uid of
`uids_to_delete` is a key of the dict); it returns the state unchanged. -/
def processDelete (cfg : Cfg) (st : PassSt) (uid : String) : PassSt :=
  match dget? st.synced uid with
  | some r =>
      if cfg.deleteFails uid then
        { st with calls := st.calls ++ [SinkCall.delete uid r.task_id],
                  errors := st.errors ++ [("delete", uid)] }
      else
        { st with calls := st.calls ++ [SinkCall.delete uid r.task_id],
                  synced := derase st.synced uid,
                  deleted := st.deleted + 1 }
  | none => st

/-- `sync_once` (src/Lambda/Main_Lambda.py lines 117-166), given the
already-fetched events and the loaded prior state.  `seen_uids` equals the
key set of `event_uids_map` because every iteration of the first loop adds
its uid.  The final `.synced` is exactly the dict passed to the
unconditional `save_synced_tasks` call at line 162. -/
def sync_once (cfg : Cfg) (events : List Event) (synced0 : IdentitySet) : PassSt :=
  let m := event_uids_map events
  let st0 : PassSt := ⟨synced0, 0, 0, 0, [], []⟩
  let st1 := m.foldl (processEvent cfg) st0
  let seen := dkeys m
  let uids_to_delete := (dkeys st1.synced).filter (fun u => decide (u ∉ seen))
  uids_to_delete.foldl (processDelete cfg) st1

/-! ### Per-item characterization of the create/update loop

The following functions describe, relative to the dict state `S` a key had
when its item was processed, what one iteration of the loop contributes:
whether the create (resp. update) succeeded, which error prints and sink
calls it emits, and the value the key holds afterwards. -/

/-- The create call for this item runs and succeeds. -/
def createSuccB (cfg : Cfg) (S : IdentitySet) (p : String × Event) : Bool :=
  (dget? S p.1).isNone && ! cfg.createFails p.1

/-- The update branch runs and succeeds (an empty due payload returns
before any HTTP call, so it always succeeds). -/
def updateSuccB (cfg : Cfg) (S : IdentitySet) (p : String × Event) : Bool :=
  match dget? S p.1 with
  | some r => decide (r.due ≠ get_due_string p.2.start) &&
      (decide (format_due_payload p.2.start = DuePayload.empty) || ! cfg.updateFails p.1)
  | none => false

/-- The `ERROR:` prints one iteration of the first loop emits. -/
def eventErrorsFor (cfg : Cfg) (S : IdentitySet) (p : String × Event) :
    List (String × String) :=
  match dget? S p.1 with
  | none => if cfg.createFails p.1 then [("create", p.1)] else []
  | some r =>
      if r.due ≠ get_due_string p.2.start ∧
          format_due_payload p.2.start ≠ DuePayload.empty ∧
          cfg.updateFails p.1 = true then
        [("update", p.1)]
      else []

/-- The sink calls one iteration of the first loop attempts. -/
def eventCallsFor (cfg : Cfg) (S : IdentitySet) (p : String × Event) :
    List SinkCall :=
  match dget? S p.1 with
  | none => [SinkCall.create p.1]
  | some r =>
      if r.due ≠ get_due_string p.2.start ∧
          format_due_payload p.2.start ≠ DuePayload.empty then
        [SinkCall.update p.1 r.task_id]
      else []

/-- The value held at the processed key after its iteration. -/
def postEvent (cfg : Cfg) (S : IdentitySet) (uid : String) (e : Event) :
    Option Record :=
  match dget? S uid with
  | none =>
      if cfg.createFails uid then none
      else some ⟨cfg.newTaskId uid, get_due_string e.start⟩
  | some r =>
      if r.due ≠ get_due_string e.start then
        if format_due_payload e.start = DuePayload.empty then
          some ⟨r.task_id, get_due_string e.start⟩
        else if cfg.updateFails uid then some r
        else some ⟨r.task_id, get_due_string e.start⟩
      else some r

/-- The sink call one iteration of the deletion loop attempts, relative to
a reference dict `M` (the loop only runs on keys present in the dict). -/
def deleteCallsFor (M : IdentitySet) (u : String) : List SinkCall :=
  match dget? M u with
  | some r => [SinkCall.delete u r.task_id]
  | none => []

/-- The `ERROR:` prints one iteration of the deletion loop emits. -/
def deleteErrorsFor (cfg : Cfg) (M : IdentitySet) (u : String) :
    List (String × String) :=
  match dget? M u with
  | some r => if cfg.deleteFails u then [("delete", u)] else []
  | none => []

/-- The loop state after the create/update loop of `sync_once`. -/
def passSt1 (cfg : Cfg) (events : List Event) (S : IdentitySet) : PassSt :=
  (event_uids_map events).foldl (processEvent cfg) ⟨S, 0, 0, 0, [], []⟩

/-- The `uids_to_delete` list of `sync_once` (line 151). -/
def passDels (cfg : Cfg) (events : List Event) (S : IdentitySet) : List String :=
  (dkeys (passSt1 cfg events S).synced).filter
    (fun u => decide (u ∉ dkeys (event_uids_map events)))

/-- The value held at `uid` in the state persisted at the end of one pass:
current events are created/updated per `postEvent`; stale keys are removed
unless their delete call failed. -/
def postPass (cfg : Cfg) (events : List Event) (S : IdentitySet) (u : String) :
    Option Record :=
  match dget? (event_uids_map events) u with
  | some e => postEvent cfg S u e
  | none =>
      match dget? S u with
      | some r => if cfg.deleteFails u then some r else none
      | none => none

/-- JSON values, as far as the synced-tasks state file uses them. -/
inductive JVal where
  | jnull
  | jstr (s : String)
  | jobj (fields : List (String × JVal))

/-- Serialization of one `{"task_id": ..., "due": ...}` record
(`due` may be `None`, serialized as JSON `null`). -/
def encodeRecord (r : Record) : JVal :=
  JVal.jobj [("task_id", JVal.jstr r.task_id),
             ("due", match r.due with
                     | some s => JVal.jstr s
                     | none => JVal.jnull)]

/-- `save_synced_tasks` (src/Lambda/Main_Lambda.py lines 34-37):
`json.dump` of the dict, field order preserved. -/
def save_synced_tasks (m : IdentitySet) : JVal :=
  JVal.jobj (m.map (fun p => (p.1, encodeRecord p.2)))

/-- Reading one record back from parsed JSON. -/
def decodeRecord : JVal → Option Record
  | JVal.jobj [("task_id", JVal.jstr t), ("due", JVal.jstr s)] => some ⟨t, some s⟩
  | JVal.jobj [("task_id", JVal.jstr t), ("due", JVal.jnull)] => some ⟨t, none⟩
  | _ => none

/-- One field of the parsed JSON object inserted into the dict being
rebuilt (duplicate keys collapse to the last one, as in a Python dict
built by the JSON parser). -/
def decodeStep (acc : Option IdentitySet) (p : String × JVal) : Option IdentitySet :=
  match acc, decodeRecord p.2 with
  | some m2, some r => some (dinsert m2 p.1 r)
  | _, _ => none

/-- `json.load`-style reconstruction of the dict: object fields are
inserted in order. -/
def decodeTasks : JVal → Option IdentitySet
  | JVal.jobj fields => fields.foldl decodeStep (some [])
  | _ => none

/-- `load_synced_tasks` (src/Lambda/Main_Lambda.py lines 22-32): a missing
or unparseable state file yields the empty dict (`FileNotFoundError` /
`JSONDecodeError` are caught and `{}` returned). -/
def load_synced_tasks (stored : Option JVal) : IdentitySet :=
  match stored with
  | none => []
  | some v => (decodeTasks v).getD []

end Lambda

namespace CLI

/-- One parsed VEVENT as built by `parse_calendar` (src/Main.py lines
46-67): uid, stripped summary/description/location (absent fields become
empty strings), and the optional `DTSTART`/`DTEND` values. -/
structure CEvent where
  uid : String
  summary : String
  description : String
  location : String
  dtstart : Option DT
  dtend : Option DT
  deriving DecidableEq

/-- One Todoist task as `main` inspects it: id, content, and the
`due` object's `date` / `datetime` fields (`none` when absent). -/
structure TTask where
  id : String
  content : String
  due_date : Option String
  due_datetime : Option String
  deriving DecidableEq

/-- The `±HH:MM[:SS]` offset suffix of `datetime.isoformat()` for a
fixed-offset timezone of `off` seconds. -/
def renderOffset (off : Int) : String :=
  (if off < 0 then "-" else "+")
    ++ padNum 2 (off.natAbs / 3600) ++ ":" ++ padNum 2 (off.natAbs % 3600 / 60)
    ++ (if off.natAbs % 60 = 0 then "" else ":" ++ padNum 2 (off.natAbs % 60))

/-- `isoformat_for_todoist` (src/Main.py lines 28-39): a date renders as
`YYYY-MM-DD`; a naive datetime is reinterpreted as UTC
(`replace(tzinfo=tzutc())`); an aware datetime keeps its own offset
(this variant does not convert to UTC). -/
def isoformat_for_todoist : DT → String
  | DT.date y m d => isoDate y m d
  | DT.datetime y m d hh mi ss micro tz =>
      basicDT ⟨y, m, d, hh, mi, ss⟩
        ++ (if micro = 0 then "" else "." ++ padNum 6 micro)
        ++ renderOffset (tz.getD 0)

/-- Python `s[:n]` on a string (slice of code points). -/
def pyslice (d : String) (n : Nat) : String :=
  String.mk (d.data.take n)

/-- `event["description"][:120] + ("..." if len(...) > 120 else "")` —
the description fragment as rendered into task content (lines 102, 141
and 224, identical text at all three sites). -/
def renderDesc (d : String) : String :=
  pyslice d 120 ++ (if 120 < d.length then "..." else "")

/-- Python `sep.join(parts)`. -/
def pyJoin (sep : String) : List String → String
  | [] => ""
  | [x] => x
  | x :: y :: xs => x ++ sep ++ pyJoin sep (y :: xs)

/-- The task content string built for an event.  This construction is
duplicated verbatim in `create_task_for_event` (lines 95-107),
`update_task_for_event` (lines 136-146) and inline in `main`
(lines 219-229): summary (or `"Untitled event"`), then `@location` and
the truncated description joined by `" | "`, then the marker text. -/
def content_for_event (marker : String) (ev : CEvent) : String :=
  (if (if ev.location = "" then ([] : List String) else ["@" ++ ev.location])
      ++ (if ev.description = "" then [] else [renderDesc ev.description]) = []
   then (if ev.summary = "" then "Untitled event" else ev.summary)
   else (if ev.summary = "" then "Untitled event" else ev.summary) ++ " — "
     ++ pyJoin " | "
       ((if ev.location = "" then ([] : List String) else ["@" ++ ev.location])
        ++ (if ev.description = "" then [] else [renderDesc ev.description])))
  ++ (" (" ++ marker ++ ev.uid ++ ")")

/-- The content of the create payload (`create_task_for_event`,
src/Main.py lines 94-107). -/
def create_task_content (marker : String) (ev : CEvent) : String :=
  content_for_event marker ev

/-- The content of the update payload (`update_task_for_event`,
src/Main.py lines 134-150). -/
def update_task_content (marker : String) (ev : CEvent) : String :=
  content_for_event marker ev

/-- Python truthiness of an optional string (`None` and `""` are falsy). -/
def truthyOpt : Option String → Bool
  | none => false
  | some s => decide (s ≠ "")

/-- Python `a or b` over two optional strings. -/
def pyOr (a b : Option String) : Option String :=
  if truthyOpt a then a else b

/-- The `need_update` computation of `main` (src/Main.py lines 218-246):
content difference, or due nullity difference, or (both due strings
truthy) due string difference.  `existing_due_dt` is
`existing_due.get("date") or existing_due.get("datetime")`; `new_due` is
`isoformat_for_todoist(ev["dtstart"])` when present, else `None`. -/
def need_update (marker : String) (t : TTask) (ev : CEvent) : Bool :=
  decide (t.content ≠ content_for_event marker ev)
    || ((pyOr t.due_date t.due_datetime).isNone
          && (ev.dtstart.map isoformat_for_todoist).isSome
        || (pyOr t.due_date t.due_datetime).isSome
          && (ev.dtstart.map isoformat_for_todoist).isNone)
    || (truthyOpt (pyOr t.due_date t.due_datetime)
        && truthyOpt (ev.dtstart.map isoformat_for_todoist)
        && decide (pyOr t.due_date t.due_datetime
            ≠ ev.dtstart.map isoformat_for_todoist))

/-- CLI invocation context: marker, the `--update-existing` and
`--dry-run` flags, and which sink calls fail (exceptions caught by the
per-item `except` blocks). -/
structure Args where
  marker : String
  update_existing : Bool
  dry_run : Bool
  createFails : String → Bool
  updateFails : String → Bool

/-- One attempted HTTP call to the task sink from the CLI loop, tagged
with the uid being processed. -/
inductive CliCall where
  | create (uid : String)
  | update (uid : String) (task_id : String)
  deriving DecidableEq

/-- The uid a CLI sink call was issued for. -/
def CliCall.uidOf : CliCall → String
  | .create u => u
  | .update u _ => u

/-- The counters of `main` and the trace of attempted sink calls. -/
structure CliSt where
  created : Nat
  skipped : Nat
  updated : Nat
  calls : List CliCall
  deriving DecidableEq

/-- Body of the event loop of `main` (src/Main.py lines 207-268) for one
event.  An empty uid is skipped outright (lines 209-212).  An existing
marker-matched task is updated only under `--update-existing` and only
when `need_update`, else skipped (lines 214-259); `update_task_for_event`
returns before any HTTP call under `--dry-run`, and `updated` counts only
successful updates.  Otherwise the task is created;
`create_task_for_event` returns `None` under `--dry-run` (not counted)
and `created` counts only successful creates. -/
def processCliEvent (args : Args) (existing : List (String × TTask))
    (st : CliSt) (ev : CEvent) : CliSt :=
  if ev.uid = "" then { st with skipped := st.skipped + 1 }
  else
    match dget? existing ev.uid with
    | some t =>
        if args.update_existing then
          if need_update args.marker t ev then
            if args.dry_run then { st with updated := st.updated + 1 }
            else if args.updateFails ev.uid then
              { st with calls := st.calls ++ [CliCall.update ev.uid t.id] }
            else
              { st with calls := st.calls ++ [CliCall.update ev.uid t.id],
                        updated := st.updated + 1 }
          else { st with skipped := st.skipped + 1 }
        else { st with skipped := st.skipped + 1 }
    | none =>
        if args.dry_run then st
        else if args.createFails ev.uid then
          { st with calls := st.calls ++ [CliCall.create ev.uid] }
        else
          { st with calls := st.calls ++ [CliCall.create ev.uid],
                    created := st.created + 1 }

/-- The whole event loop of `main` over the (possibly `--limit`-truncated)
event list, given the marker-matched existing tasks
(`find_existing_tasks_by_uid`). -/
def main_loop (args : Args) (existing : List (String × TTask))
    (events : List CEvent) : CliSt :=
  events.foldl (processCliEvent args existing) ⟨0, 0, 0, []⟩

/-- Increase only the skipped counter. -/
def bumpSkip (n : Nat) (st : CliSt) : CliSt :=
  { st with skipped := st.skipped + n }

end CLI

/-! ## Theorems -/

theorem dget?_eq_none_iff [DecidableEq α] (m : List (α × β)) (a : α) :
    dget? m a = none ↔ a ∉ dkeys m := by
  induction m with
  | nil => simp [dget?, dkeys]
  | cons p t ih =>
    obtain ⟨k, v⟩ := p
    by_cases h : k = a
    · subst h; simp [dget?, dkeys]
    · simp [dget?, dkeys, h, ih, Ne.symm h]

theorem dget?_isSome_iff [DecidableEq α] (m : List (α × β)) (a : α) :
    (dget? m a).isSome ↔ a ∈ dkeys m := by
  cases h : dget? m a with
  | none => simp [(dget?_eq_none_iff m a).mp h]
  | some b =>
    have hm : a ∈ dkeys m := by
      by_contra hmem
      have := (dget?_eq_none_iff m a).mpr hmem
      simp [h] at this
    simp [hm]

theorem dget?_dinsert_self [DecidableEq α] (m : List (α × β)) (a : α) (b : β) :
    dget? (dinsert m a b) a = some b := by
  induction m with
  | nil => simp [dinsert, dget?]
  | cons p t ih =>
    obtain ⟨k, v⟩ := p
    by_cases h : k = a
    · subst h; simp [dinsert, dget?]
    · simp [dinsert, dget?, h, ih]

theorem dget?_dinsert_ne [DecidableEq α] (m : List (α × β)) (a c : α) (b : β)
    (h : c ≠ a) : dget? (dinsert m a b) c = dget? m c := by
  induction m with
  | nil => simp [dinsert, dget?, Ne.symm h]
  | cons p t ih =>
    obtain ⟨k, v⟩ := p
    by_cases hk : k = a
    · subst hk; simp [dinsert, dget?, Ne.symm h, h]
    · by_cases hc : k = c <;> simp [dinsert, dget?, hk, hc, h, ih]

theorem dget?_derase_ne [DecidableEq α] (m : List (α × β)) (a c : α)
    (h : c ≠ a) : dget? (derase m a) c = dget? m c := by
  induction m with
  | nil => simp [derase]
  | cons p t ih =>
    obtain ⟨k, v⟩ := p
    by_cases hk : k = a
    · subst hk; simp [derase, dget?, Ne.symm h]
    · by_cases hc : k = c <;> simp [derase, dget?, hk, hc, h, ih]

theorem dget?_derase_self [DecidableEq α] (m : List (α × β)) (a : α)
    (hw : dwf m) : dget? (derase m a) a = none := by
  induction m with
  | nil => simp [derase, dget?]
  | cons p t ih =>
    obtain ⟨k, v⟩ := p
    have hw' : dwf t := (List.nodup_cons.mp hw).2
    by_cases hk : k = a
    · subst hk
      have : k ∉ dkeys t := (List.nodup_cons.mp hw).1
      simp [derase, (dget?_eq_none_iff t k).mpr this]
    · simp [derase, dget?, hk, ih hw']

theorem dkeys_dinsert [DecidableEq α] (m : List (α × β)) (a : α) (b : β) :
    dkeys (dinsert m a b) = if a ∈ dkeys m then dkeys m else dkeys m ++ [a] := by
  induction m with
  | nil => simp [dinsert, dkeys]
  | cons p t ih =>
    obtain ⟨k, v⟩ := p
    by_cases hk : k = a
    · subst hk; simp [dinsert, dkeys]
    · have h1 : dinsert ((k, v) :: t) a b = (k, v) :: dinsert t a b := by
        simp [dinsert, hk]
      have h2 : a ∈ dkeys ((k, v) :: t) ↔ a ∈ dkeys t := by
        simp [dkeys, Ne.symm hk]
      have h3 : dkeys ((k, v) :: dinsert t a b) = k :: dkeys (dinsert t a b) := rfl
      by_cases hm : a ∈ dkeys t
      · rw [h1, h3, ih, if_pos hm, if_pos (h2.mpr hm)]
        rfl
      · rw [h1, h3, ih, if_neg hm, if_neg (fun hx => hm (h2.mp hx))]
        rfl

theorem mem_dkeys_dinsert [DecidableEq α] (m : List (α × β)) (a c : α) (b : β) :
    c ∈ dkeys (dinsert m a b) ↔ c ∈ dkeys m ∨ c = a := by
  rw [dkeys_dinsert]
  by_cases hm : a ∈ dkeys m
  · simp [hm]
    exact fun h => h ▸ hm
  · simp [hm]

theorem dwf_dinsert [DecidableEq α] (m : List (α × β)) (a : α) (b : β)
    (hw : dwf m) : dwf (dinsert m a b) := by
  unfold dwf
  rw [dkeys_dinsert]
  by_cases hm : a ∈ dkeys m
  · simpa [hm] using hw
  · rw [if_neg hm]
    have hd : (dkeys m).Disjoint [a] := by
      intro x hx hxa
      rw [List.mem_singleton] at hxa
      subst hxa
      exact hm hx
    exact List.Nodup.append hw (List.nodup_singleton a) hd

theorem dkeys_derase_sublist [DecidableEq α] (m : List (α × β)) (a : α) :
    (dkeys (derase m a)).Sublist (dkeys m) := by
  induction m with
  | nil => simp [derase, dkeys]
  | cons p t ih =>
    obtain ⟨k, v⟩ := p
    by_cases hk : k = a
    · subst hk
      simp only [derase, if_pos rfl]
      exact List.Sublist.cons k (List.Sublist.refl (dkeys t))
    · simpa [derase, dkeys, hk] using List.Sublist.cons₂ k ih

theorem dwf_derase [DecidableEq α] (m : List (α × β)) (a : α)
    (hw : dwf m) : dwf (derase m a) :=
  List.Nodup.sublist (dkeys_derase_sublist m a) hw

namespace Lambda

theorem dwf_event_uids_map (events : List Event) : dwf (event_uids_map events) := by
  have key : ∀ (l : List Event) (m : List (String × Event)), dwf m →
      dwf (l.foldl (fun m e => dinsert m e.uid e) m) := by
    intro l
    induction l with
    | nil => intro m hm; simpa using hm
    | cons e t ih =>
      intro m hm
      exact ih (dinsert m e.uid e) (dwf_dinsert m e.uid e hm)
  exact key events [] (by simp [dwf, dkeys])

theorem mem_dkeys_event_uids_map (events : List Event) (u : String) :
    u ∈ dkeys (event_uids_map events) ↔ u ∈ events.map Event.uid := by
  have key : ∀ (l : List Event) (m : List (String × Event)),
      u ∈ dkeys (l.foldl (fun m e => dinsert m e.uid e) m) ↔
        u ∈ dkeys m ∨ u ∈ l.map Event.uid := by
    intro l
    induction l with
    | nil => intro m; simp
    | cons e t ih =>
      intro m
      rw [List.foldl_cons, ih (dinsert m e.uid e)]
      rw [mem_dkeys_dinsert]
      simp
      tauto
  unfold event_uids_map
  rw [key events []]
  simp [dkeys]

theorem dget?_eq_some_iff_mem [DecidableEq α] (m : List (α × β)) (hw : dwf m)
    (a : α) (b : β) : dget? m a = some b ↔ (a, b) ∈ m := by
  induction m with
  | nil => simp [dget?]
  | cons p t ih =>
    obtain ⟨k, v⟩ := p
    have hw' : dwf t := (List.nodup_cons.mp hw).2
    have hknot : k ∉ dkeys t := (List.nodup_cons.mp hw).1
    by_cases hk : k = a
    · subst hk
      simp only [dget?, if_pos rfl, List.mem_cons]
      constructor
      · intro h
        exact Or.inl (by simpa using h.symm)
      · rintro (h | h)
        · simpa using congrArg Prod.snd h.symm
        · exact absurd (List.mem_map_of_mem Prod.fst h) hknot
    · simp only [dget?, if_neg hk, List.mem_cons, ih hw']
      constructor
      · exact Or.inr
      · rintro (h | h)
        · exact absurd (congrArg Prod.fst h).symm hk
        · exact h

theorem createEligible_iff (S : IdentitySet) (p : String × Event) :
    createEligible S p = true ↔ dget? S p.1 = none := by
  cases h : dget? S p.1 <;> simp [createEligible, h]

theorem updateEligible_iff (S : IdentitySet) (p : String × Event) :
    updateEligible S p = true ↔
      ∃ r, dget? S p.1 = some r ∧ r.due ≠ get_due_string p.2.start := by
  cases h : dget? S p.1 <;> simp [updateEligible, h]

theorem unchangedEligible_iff (S : IdentitySet) (p : String × Event) :
    unchangedEligible S p = true ↔
      ∃ r, dget? S p.1 = some r ∧ r.due = get_due_string p.2.start := by
  cases h : dget? S p.1 <;> simp [unchangedEligible, h]

theorem mem_toCreate_iff (events : List Event) (S : IdentitySet) (u : String) :
    u ∈ toCreate events S ↔
      u ∈ dkeys (event_uids_map events) ∧ dget? S u = none := by
  unfold toCreate
  rw [List.mem_map]
  constructor
  · rintro ⟨p, hp, rfl⟩
    rw [List.mem_filter] at hp
    exact ⟨List.mem_map_of_mem Prod.fst hp.1, (createEligible_iff S p).mp hp.2⟩
  · rintro ⟨hmem, hnone⟩
    obtain ⟨p, hp, rfl⟩ := List.mem_map.mp hmem
    exact ⟨p, List.mem_filter.mpr ⟨hp, (createEligible_iff S p).mpr hnone⟩, rfl⟩

theorem mem_toUpdate_iff (events : List Event) (S : IdentitySet) (u : String) :
    u ∈ toUpdate events S ↔
      ∃ e, dget? (event_uids_map events) u = some e ∧
        ∃ r, dget? S u = some r ∧ r.due ≠ get_due_string e.start := by
  unfold toUpdate
  rw [List.mem_map]
  constructor
  · rintro ⟨p, hp, rfl⟩
    rw [List.mem_filter] at hp
    obtain ⟨r, hr, hd⟩ := (updateEligible_iff S p).mp hp.2
    exact ⟨p.2, (dget?_eq_some_iff_mem _ (dwf_event_uids_map events) _ _).mpr hp.1,
      r, hr, hd⟩
  · rintro ⟨e, he, r, hr, hd⟩
    refine ⟨(u, e), List.mem_filter.mpr
      ⟨(dget?_eq_some_iff_mem _ (dwf_event_uids_map events) _ _).mp he, ?_⟩, rfl⟩
    exact (updateEligible_iff S (u, e)).mpr ⟨r, hr, hd⟩

theorem mem_unchangedUids_iff (events : List Event) (S : IdentitySet) (u : String) :
    u ∈ unchangedUids events S ↔
      ∃ e, dget? (event_uids_map events) u = some e ∧
        ∃ r, dget? S u = some r ∧ r.due = get_due_string e.start := by
  unfold unchangedUids
  rw [List.mem_map]
  constructor
  · rintro ⟨p, hp, rfl⟩
    rw [List.mem_filter] at hp
    obtain ⟨r, hr, hd⟩ := (unchangedEligible_iff S p).mp hp.2
    exact ⟨p.2, (dget?_eq_some_iff_mem _ (dwf_event_uids_map events) _ _).mpr hp.1,
      r, hr, hd⟩
  · rintro ⟨e, he, r, hr, hd⟩
    refine ⟨(u, e), List.mem_filter.mpr
      ⟨(dget?_eq_some_iff_mem _ (dwf_event_uids_map events) _ _).mp he, ?_⟩, rfl⟩
    exact (unchangedEligible_iff S (u, e)).mpr ⟨r, hr, hd⟩

theorem mem_toDelete_iff (events : List Event) (S : IdentitySet) (u : String) :
    u ∈ toDelete events S ↔
      u ∈ dkeys S ∧ u ∉ dkeys (event_uids_map events) := by
  unfold toDelete
  rw [List.mem_filter]
  simp

/-- **C1**: For every sequence of current events `E` and prior identity
mapping `S`, the uids classified by one sync pass as to-create (uid of an
event in `E` not a key of `S`), to-update (uid a key of `S` with a
due-fingerprint differing from the stored one) and to-delete (key of `S`
with no event in `E`) are pairwise disjoint, and together with the
unchanged uids they cover every uid occurring in `E` or in the keys
of `S`. -/
theorem C1_diff_disjoint_cover (events : List Event) (S : IdentitySet) (u : String) :
    (¬ (u ∈ toCreate events S ∧ u ∈ toUpdate events S) ∧
     ¬ (u ∈ toCreate events S ∧ u ∈ toDelete events S) ∧
     ¬ (u ∈ toUpdate events S ∧ u ∈ toDelete events S)) ∧
    ((u ∈ events.map Event.uid ∨ u ∈ dkeys S) →
      u ∈ toCreate events S ∨ u ∈ toUpdate events S ∨ u ∈ toDelete events S ∨
        u ∈ unchangedUids events S) := by
  constructor
  · refine ⟨?_, ?_, ?_⟩
    · rintro ⟨hc, hu⟩
      obtain ⟨-, hnone⟩ := (mem_toCreate_iff events S u).mp hc
      obtain ⟨e, -, r, hr, -⟩ := (mem_toUpdate_iff events S u).mp hu
      rw [hnone] at hr
      exact absurd hr (by simp)
    · rintro ⟨hc, hd⟩
      obtain ⟨hmem, -⟩ := (mem_toCreate_iff events S u).mp hc
      obtain ⟨-, hnot⟩ := (mem_toDelete_iff events S u).mp hd
      exact hnot hmem
    · rintro ⟨hu, hd⟩
      obtain ⟨e, he, -⟩ := (mem_toUpdate_iff events S u).mp hu
      obtain ⟨-, hnot⟩ := (mem_toDelete_iff events S u).mp hd
      refine hnot ?_
      rw [← dget?_isSome_iff]
      simp [he]
  · intro hcov
    by_cases hmem : u ∈ dkeys (event_uids_map events)
    · obtain ⟨e, he⟩ := Option.isSome_iff_exists.mp ((dget?_isSome_iff _ u).mpr hmem)
      match hS : dget? S u with
      | none =>
        exact Or.inl ((mem_toCreate_iff events S u).mpr ⟨hmem, hS⟩)
      | some r =>
        by_cases hd : r.due = get_due_string e.start
        · exact Or.inr (Or.inr (Or.inr
            ((mem_unchangedUids_iff events S u).mpr ⟨e, he, r, hS, hd⟩)))
        · exact Or.inr (Or.inl
            ((mem_toUpdate_iff events S u).mpr ⟨e, he, r, hS, hd⟩))
    · have hS : u ∈ dkeys S := by
        rcases hcov with h | h
        · exact absurd ((mem_dkeys_event_uids_map events u).mpr h) hmem
        · exact h
      exact Or.inr (Or.inr (Or.inl ((mem_toDelete_iff events S u).mpr ⟨hS, hmem⟩)))

/-- Witness for C1: at a concrete snapshot and state the coverage
hypothesis holds and the covering disjunction is realized. -/
theorem C1_diff_disjoint_cover_witness :
    (("e1" ∈ ([⟨"e1", "Standup", none⟩] : List Event).map Event.uid ∨
        "e1" ∈ dkeys ([("e2", ⟨"t2", none⟩)] : IdentitySet)) ∧
      ("e1" ∈ toCreate [⟨"e1", "Standup", none⟩] [("e2", ⟨"t2", none⟩)] ∨
        "e1" ∈ toUpdate [⟨"e1", "Standup", none⟩] [("e2", ⟨"t2", none⟩)] ∨
        "e1" ∈ toDelete [⟨"e1", "Standup", none⟩] [("e2", ⟨"t2", none⟩)] ∨
        "e1" ∈ unchangedUids [⟨"e1", "Standup", none⟩] [("e2", ⟨"t2", none⟩)])) :=
  ⟨by decide,
    (C1_diff_disjoint_cover [⟨"e1", "Standup", none⟩] [("e2", ⟨"t2", none⟩)] "e1").2
      (by decide)⟩

theorem processEvent_created (cfg : Cfg) (S : IdentitySet) (st : PassSt)
    (p : String × Event) (hag : dget? st.synced p.1 = dget? S p.1) :
    (processEvent cfg st p).created =
      st.created + (if createSuccB cfg S p then 1 else 0) := by
  unfold processEvent createSuccB
  rw [← hag]
  cases hs : dget? st.synced p.1 with
  | none => by_cases hcf : cfg.createFails p.1 <;> simp [hcf]
  | some r =>
    by_cases hd : r.due ≠ get_due_string p.2.start
    · by_cases hp : format_due_payload p.2.start = DuePayload.empty
      · simp [hd, hp]
      · by_cases hu : cfg.updateFails p.1 <;> simp [hd, hp, hu]
    · simp [hd]

theorem processEvent_updated (cfg : Cfg) (S : IdentitySet) (st : PassSt)
    (p : String × Event) (hag : dget? st.synced p.1 = dget? S p.1) :
    (processEvent cfg st p).updated =
      st.updated + (if updateSuccB cfg S p then 1 else 0) := by
  unfold processEvent updateSuccB
  rw [← hag]
  cases hs : dget? st.synced p.1 with
  | none => by_cases hcf : cfg.createFails p.1 <;> simp [hcf]
  | some r =>
    by_cases hd : r.due ≠ get_due_string p.2.start
    · by_cases hp : format_due_payload p.2.start = DuePayload.empty
      · simp [hd, hp]
      · by_cases hu : cfg.updateFails p.1 <;> simp [hd, hp, hu]
    · simp [hd]

theorem processEvent_deleted (cfg : Cfg) (st : PassSt) (p : String × Event) :
    (processEvent cfg st p).deleted = st.deleted := by
  unfold processEvent
  cases hs : dget? st.synced p.1 with
  | none => by_cases hcf : cfg.createFails p.1 <;> simp [hcf]
  | some r =>
    by_cases hd : r.due ≠ get_due_string p.2.start
    · by_cases hp : format_due_payload p.2.start = DuePayload.empty
      · simp [hd, hp]
      · by_cases hu : cfg.updateFails p.1 <;> simp [hd, hp, hu]
    · simp [hd]

theorem processEvent_errors (cfg : Cfg) (S : IdentitySet) (st : PassSt)
    (p : String × Event) (hag : dget? st.synced p.1 = dget? S p.1) :
    (processEvent cfg st p).errors = st.errors ++ eventErrorsFor cfg S p := by
  unfold processEvent eventErrorsFor
  rw [← hag]
  cases hs : dget? st.synced p.1 with
  | none => by_cases hcf : cfg.createFails p.1 <;> simp [hcf]
  | some r =>
    by_cases hd : r.due ≠ get_due_string p.2.start
    · by_cases hp : format_due_payload p.2.start = DuePayload.empty
      · simp [hd, hp]
      · by_cases hu : cfg.updateFails p.1 <;> simp [hd, hp, hu]
    · simp [hd]

theorem processEvent_calls (cfg : Cfg) (S : IdentitySet) (st : PassSt)
    (p : String × Event) (hag : dget? st.synced p.1 = dget? S p.1) :
    (processEvent cfg st p).calls = st.calls ++ eventCallsFor cfg S p := by
  unfold processEvent eventCallsFor
  rw [← hag]
  cases hs : dget? st.synced p.1 with
  | none => by_cases hcf : cfg.createFails p.1 <;> simp [hcf]
  | some r =>
    by_cases hd : r.due ≠ get_due_string p.2.start
    · by_cases hp : format_due_payload p.2.start = DuePayload.empty
      · simp [hd, hp]
      · by_cases hu : cfg.updateFails p.1 <;> simp [hd, hp, hu]
    · simp [hd]

theorem processEvent_synced_self (cfg : Cfg) (S : IdentitySet) (st : PassSt)
    (p : String × Event) (hag : dget? st.synced p.1 = dget? S p.1) :
    dget? (processEvent cfg st p).synced p.1 = postEvent cfg S p.1 p.2 := by
  unfold processEvent postEvent
  rw [← hag]
  cases hs : dget? st.synced p.1 with
  | none =>
    by_cases hcf : cfg.createFails p.1 <;> simp [hcf, hs, dget?_dinsert_self]
  | some r =>
    by_cases hd : r.due ≠ get_due_string p.2.start
    · by_cases hp : format_due_payload p.2.start = DuePayload.empty
      · simp [hd, hp, dget?_dinsert_self]
      · by_cases hu : cfg.updateFails p.1 <;>
          simp [hd, hp, hu, hs, dget?_dinsert_self]
    · simp [hd, hs]

theorem processEvent_synced_ne (cfg : Cfg) (st : PassSt) (p : String × Event)
    (u : String) (hu : u ≠ p.1) :
    dget? (processEvent cfg st p).synced u = dget? st.synced u := by
  unfold processEvent
  cases hs : dget? st.synced p.1 with
  | none =>
    by_cases hcf : cfg.createFails p.1 <;>
      simp [hcf, dget?_dinsert_ne _ _ _ _ hu]
  | some r =>
    by_cases hd : r.due ≠ get_due_string p.2.start
    · by_cases hp : format_due_payload p.2.start = DuePayload.empty
      · simp [hd, hp, dget?_dinsert_ne _ _ _ _ hu]
      · by_cases hu2 : cfg.updateFails p.1 <;>
          simp [hd, hp, hu2, dget?_dinsert_ne _ _ _ _ hu]
    · simp [hd]

theorem processEvent_dwf (cfg : Cfg) (st : PassSt) (p : String × Event)
    (hw : dwf st.synced) : dwf (processEvent cfg st p).synced := by
  unfold processEvent
  cases hs : dget? st.synced p.1 with
  | none =>
    by_cases hcf : cfg.createFails p.1 <;> simp [hcf, hw, dwf_dinsert _ _ _ hw]
  | some r =>
    by_cases hd : r.due ≠ get_due_string p.2.start
    · by_cases hp : format_due_payload p.2.start = DuePayload.empty
      · simp [hd, hp, dwf_dinsert _ _ _ hw]
      · by_cases hu : cfg.updateFails p.1 <;>
          simp [hd, hp, hu, hw, dwf_dinsert _ _ _ hw]
    · simp [hd, hw]

/-- Characterization of the whole create/update loop
(`for uid, event in event_uids_map.items()`, lines 127-148) by induction
over the items, relative to a reference dict `S` the loop state agrees
with on all processed keys. -/
theorem eventFold_spec (cfg : Cfg) (S : IdentitySet) :
    ∀ (m : List (String × Event)) (st : PassSt),
      (dkeys m).Nodup →
      (∀ p ∈ m, dget? st.synced p.1 = dget? S p.1) →
      (m.foldl (processEvent cfg) st).created
          = st.created + (m.filter (createSuccB cfg S)).length ∧
      (m.foldl (processEvent cfg) st).updated
          = st.updated + (m.filter (updateSuccB cfg S)).length ∧
      (m.foldl (processEvent cfg) st).deleted = st.deleted ∧
      (m.foldl (processEvent cfg) st).errors
          = st.errors ++ (m.map (eventErrorsFor cfg S)).flatten ∧
      (m.foldl (processEvent cfg) st).calls
          = st.calls ++ (m.map (eventCallsFor cfg S)).flatten ∧
      (∀ u, dget? (m.foldl (processEvent cfg) st).synced u =
        match dget? m u with
        | some e => postEvent cfg S u e
        | none => dget? st.synced u) ∧
      (dwf st.synced → dwf (m.foldl (processEvent cfg) st).synced) := by
  intro m
  induction m with
  | nil =>
    intro st _ _
    simp [dget?]
  | cons p t ih =>
    obtain ⟨k, e⟩ := p
    intro st hnd hag
    have hagp : dget? st.synced k = dget? S k := hag (k, e) (List.mem_cons_self _ t)
    have hptk : k ∉ dkeys t := (List.nodup_cons.mp hnd).1
    have hndt : (dkeys t).Nodup := (List.nodup_cons.mp hnd).2
    have hagt : ∀ q ∈ t, dget? (processEvent cfg st (k, e)).synced q.1 = dget? S q.1 := by
      intro q hq
      have hne : q.1 ≠ k := fun h => hptk (h ▸ List.mem_map_of_mem Prod.fst hq)
      rw [processEvent_synced_ne cfg st (k, e) q.1 hne]
      exact hag q (List.mem_cons_of_mem _ hq)
    obtain ⟨ic, iu, idd, ie, ica, ilk, iwf⟩ := ih (processEvent cfg st (k, e)) hndt hagt
    refine ⟨?_, ?_, ?_, ?_, ?_, ?_, ?_⟩
    · rw [List.foldl_cons, ic, processEvent_created cfg S st (k, e) hagp,
        List.filter_cons]
      by_cases h : createSuccB cfg S (k, e) <;> simp [h] <;> omega
    · rw [List.foldl_cons, iu, processEvent_updated cfg S st (k, e) hagp,
        List.filter_cons]
      by_cases h : updateSuccB cfg S (k, e) <;> simp [h] <;> omega
    · rw [List.foldl_cons, idd, processEvent_deleted]
    · rw [List.foldl_cons, ie, processEvent_errors cfg S st (k, e) hagp]
      simp [List.append_assoc]
    · rw [List.foldl_cons, ica, processEvent_calls cfg S st (k, e) hagp]
      simp [List.append_assoc]
    · intro u
      rw [List.foldl_cons, ilk u]
      by_cases hku : k = u
      · subst hku
        have ht : dget? t k = none := (dget?_eq_none_iff t k).mpr hptk
        rw [ht]
        have hh : dget? ((k, e) :: t) k = some e := by simp [dget?]
        rw [hh]
        exact processEvent_synced_self cfg S st (k, e) hagp
      · have hh : dget? ((k, e) :: t) u = dget? t u := by simp [dget?, hku]
        rw [hh]
        cases hdu : dget? t u with
        | some e2 => rfl
        | none =>
          exact processEvent_synced_ne cfg st (k, e) u (fun h => hku h.symm)
    · intro hw
      exact iwf (processEvent_dwf cfg st (k, e) hw)

theorem processDelete_created (cfg : Cfg) (st : PassSt) (u : String) :
    (processDelete cfg st u).created = st.created := by
  unfold processDelete
  cases hs : dget? st.synced u with
  | none => rfl
  | some r => by_cases hf : cfg.deleteFails u <;> simp [hf]

theorem processDelete_updated (cfg : Cfg) (st : PassSt) (u : String) :
    (processDelete cfg st u).updated = st.updated := by
  unfold processDelete
  cases hs : dget? st.synced u with
  | none => rfl
  | some r => by_cases hf : cfg.deleteFails u <;> simp [hf]

theorem processDelete_deleted (cfg : Cfg) (M : IdentitySet) (st : PassSt)
    (u : String) (hag : dget? st.synced u = dget? M u) :
    (processDelete cfg st u).deleted =
      st.deleted + (if (dget? M u).isSome && ! cfg.deleteFails u then 1 else 0) := by
  unfold processDelete
  rw [← hag]
  cases hs : dget? st.synced u with
  | none => simp
  | some r => by_cases hf : cfg.deleteFails u <;> simp [hf]

theorem processDelete_errors (cfg : Cfg) (M : IdentitySet) (st : PassSt)
    (u : String) (hag : dget? st.synced u = dget? M u) :
    (processDelete cfg st u).errors = st.errors ++ deleteErrorsFor cfg M u := by
  unfold processDelete deleteErrorsFor
  rw [← hag]
  cases hs : dget? st.synced u with
  | none => simp
  | some r => by_cases hf : cfg.deleteFails u <;> simp [hf]

theorem processDelete_calls (cfg : Cfg) (M : IdentitySet) (st : PassSt)
    (u : String) (hag : dget? st.synced u = dget? M u) :
    (processDelete cfg st u).calls = st.calls ++ deleteCallsFor M u := by
  unfold processDelete deleteCallsFor
  rw [← hag]
  cases hs : dget? st.synced u with
  | none => simp
  | some r => by_cases hf : cfg.deleteFails u <;> simp [hf]

theorem processDelete_synced_self (cfg : Cfg) (st : PassSt) (u : String)
    (hw : dwf st.synced) :
    dget? (processDelete cfg st u).synced u =
      if cfg.deleteFails u then dget? st.synced u else none := by
  unfold processDelete
  cases hs : dget? st.synced u with
  | none => by_cases hf : cfg.deleteFails u <;> simp [hf, hs]
  | some r =>
    by_cases hf : cfg.deleteFails u <;> simp [hf, hs, dget?_derase_self _ _ hw]

theorem processDelete_synced_ne (cfg : Cfg) (st : PassSt) (u c : String)
    (hne : c ≠ u) :
    dget? (processDelete cfg st u).synced c = dget? st.synced c := by
  unfold processDelete
  cases hs : dget? st.synced u with
  | none => rfl
  | some r =>
    by_cases hf : cfg.deleteFails u <;> simp [hf, dget?_derase_ne _ _ _ hne]

theorem processDelete_dwf (cfg : Cfg) (st : PassSt) (u : String)
    (hw : dwf st.synced) : dwf (processDelete cfg st u).synced := by
  unfold processDelete
  cases hs : dget? st.synced u with
  | none => exact hw
  | some r =>
    by_cases hf : cfg.deleteFails u <;> simp [hf, hw, dwf_derase _ _ hw]

/-- Characterization of the whole deletion loop (lines 152-160), relative
to a reference dict `M` the loop state agrees with on the processed keys. -/
theorem delFold_spec (cfg : Cfg) (M : IdentitySet) :
    ∀ (ds : List String) (st : PassSt),
      ds.Nodup →
      dwf st.synced →
      (∀ u ∈ ds, dget? st.synced u = dget? M u) →
      (ds.foldl (processDelete cfg) st).created = st.created ∧
      (ds.foldl (processDelete cfg) st).updated = st.updated ∧
      (ds.foldl (processDelete cfg) st).deleted
          = st.deleted +
            (ds.filter (fun u => (dget? M u).isSome && ! cfg.deleteFails u)).length ∧
      (ds.foldl (processDelete cfg) st).errors
          = st.errors ++ (ds.map (deleteErrorsFor cfg M)).flatten ∧
      (ds.foldl (processDelete cfg) st).calls
          = st.calls ++ (ds.map (deleteCallsFor M)).flatten ∧
      (∀ u, dget? (ds.foldl (processDelete cfg) st).synced u =
        if u ∈ ds ∧ cfg.deleteFails u = false then none else dget? st.synced u) ∧
      dwf (ds.foldl (processDelete cfg) st).synced := by
  intro ds
  induction ds with
  | nil =>
    intro st _ hw _
    simp [hw]
  | cons u0 t ih =>
    intro st hnd hw hag
    have hagu : dget? st.synced u0 = dget? M u0 := hag u0 (List.mem_cons_self _ t)
    have hu0t : u0 ∉ t := (List.nodup_cons.mp hnd).1
    have hndt : t.Nodup := (List.nodup_cons.mp hnd).2
    have hw1 : dwf (processDelete cfg st u0).synced := processDelete_dwf cfg st u0 hw
    have hagt : ∀ u ∈ t, dget? (processDelete cfg st u0).synced u = dget? M u := by
      intro u hu
      have hne : u ≠ u0 := fun h => hu0t (h ▸ hu)
      rw [processDelete_synced_ne cfg st u0 u hne]
      exact hag u (List.mem_cons_of_mem _ hu)
    obtain ⟨ic, iu, idd, ie, ica, ilk, iwf⟩ := ih (processDelete cfg st u0) hndt hw1 hagt
    refine ⟨?_, ?_, ?_, ?_, ?_, ?_, iwf⟩
    · rw [List.foldl_cons, ic, processDelete_created]
    · rw [List.foldl_cons, iu, processDelete_updated]
    · rw [List.foldl_cons, idd, processDelete_deleted cfg M st u0 hagu,
        List.filter_cons]
      by_cases h : (dget? M u0).isSome && ! cfg.deleteFails u0 <;> simp [h] <;> omega
    · rw [List.foldl_cons, ie, processDelete_errors cfg M st u0 hagu]
      simp [List.append_assoc]
    · rw [List.foldl_cons, ica, processDelete_calls cfg M st u0 hagu]
      simp [List.append_assoc]
    · intro u
      rw [List.foldl_cons, ilk u]
      by_cases hu : u = u0
      · subst hu
        have hnt : u ∉ t := hu0t
        by_cases hf : cfg.deleteFails u
        · simp only [hnt, hf]
          have : (u ∈ t ∧ cfg.deleteFails u = false) = False := by
            simp [hnt]
          rw [if_neg (by simp [hnt]), if_neg (by simp [hf])]
          rw [processDelete_synced_self cfg st u hw, if_pos hf]
        · rw [if_neg (by simp [hnt]), if_pos (by simp [hf])]
          rw [processDelete_synced_self cfg st u hw, if_neg hf]
      · have hstep : dget? (processDelete cfg st u0).synced u =
            dget? st.synced u := processDelete_synced_ne cfg st u0 u hu
        rw [hstep]
        by_cases hm : u ∈ t ∧ cfg.deleteFails u = false
        · rw [if_pos hm, if_pos ⟨List.mem_cons_of_mem _ hm.1, hm.2⟩]
        · rw [if_neg hm, if_neg (by
            rintro ⟨hmem, hff⟩
            rcases List.mem_cons.mp hmem with h | h
            · exact hu h
            · exact hm ⟨h, hff⟩)]

end Lambda

theorem list_map_congr_mem {γ : Type u} {δ : Type v} (l : List γ) (f g : γ → δ)
    (h : ∀ x ∈ l, f x = g x) : l.map f = l.map g := by
  induction l with
  | nil => rfl
  | cons a t ih =>
    rw [List.map_cons, List.map_cons, h a (List.mem_cons_self a t),
      ih (fun x hx => h x (List.mem_cons_of_mem a hx))]

theorem list_filter_congr_mem {γ : Type u} (l : List γ) (p q : γ → Bool)
    (h : ∀ x ∈ l, p x = q x) : l.filter p = l.filter q := by
  induction l with
  | nil => rfl
  | cons a t ih =>
    rw [List.filter_cons, List.filter_cons, h a (List.mem_cons_self a t),
      ih (fun x hx => h x (List.mem_cons_of_mem a hx))]

namespace Lambda

theorem sync_once_eq (cfg : Cfg) (events : List Event) (S : IdentitySet) :
    sync_once cfg events S =
      (passDels cfg events S).foldl (processDelete cfg) (passSt1 cfg events S) := rfl

/-- Full characterization of one `sync_once` pass over a well-formed prior
state: the counters, error prints, sink calls and the final (persisted)
dict, all relative to the inputs. -/
theorem sync_once_spec (cfg : Cfg) (events : List Event) (S : IdentitySet)
    (hw : dwf S) :
    ∃ dels : List String,
      (∀ u, u ∈ dels ↔ (u ∈ dkeys S ∧ u ∉ dkeys (event_uids_map events))) ∧
      dels.Nodup ∧
      (sync_once cfg events S).created
          = ((event_uids_map events).filter (createSuccB cfg S)).length ∧
      (sync_once cfg events S).updated
          = ((event_uids_map events).filter (updateSuccB cfg S)).length ∧
      (sync_once cfg events S).deleted
          = (dels.filter (fun u => ! cfg.deleteFails u)).length ∧
      (sync_once cfg events S).errors
          = ((event_uids_map events).map (eventErrorsFor cfg S)).flatten
            ++ (dels.map (deleteErrorsFor cfg S)).flatten ∧
      (sync_once cfg events S).calls
          = ((event_uids_map events).map (eventCallsFor cfg S)).flatten
            ++ (dels.map (deleteCallsFor S)).flatten ∧
      (∀ u, dget? (sync_once cfg events S).synced u = postPass cfg events S u) ∧
      dwf (sync_once cfg events S).synced := by
  have hndm : (dkeys (event_uids_map events)).Nodup := dwf_event_uids_map events
  obtain ⟨e_c, e_u, e_d, e_e, e_ca, e_lk, e_wf⟩ :=
    eventFold_spec cfg S (event_uids_map events) ⟨S, 0, 0, 0, [], []⟩ hndm
      (fun p _ => rfl)
  have hw1 : dwf (passSt1 cfg events S).synced := e_wf hw
  have hlk1 : ∀ u, dget? (passSt1 cfg events S).synced u =
      match dget? (event_uids_map events) u with
      | some e => postEvent cfg S u e
      | none => dget? S u := e_lk
  have hmemdels : ∀ u, u ∈ passDels cfg events S ↔
      (u ∈ dkeys S ∧ u ∉ dkeys (event_uids_map events)) := by
    intro u
    unfold passDels
    rw [List.mem_filter]
    have hiff : u ∉ dkeys (event_uids_map events) →
        (u ∈ dkeys (passSt1 cfg events S).synced ↔ u ∈ dkeys S) := by
      intro hnot
      have hnm : dget? (event_uids_map events) u = none :=
        (dget?_eq_none_iff _ u).mpr hnot
      have h1 : dget? (passSt1 cfg events S).synced u = dget? S u := by
        have h2 := hlk1 u
        rw [hnm] at h2
        exact h2
      rw [← dget?_isSome_iff, ← dget?_isSome_iff, h1]
    constructor
    · rintro ⟨hmem, hnot⟩
      have hnot2 : u ∉ dkeys (event_uids_map events) := by simpa using hnot
      exact ⟨(hiff hnot2).mp hmem, hnot2⟩
    · rintro ⟨hS, hnot⟩
      exact ⟨(hiff hnot).mpr hS, by simpa using hnot⟩
  have hdnd : (passDels cfg events S).Nodup := List.Nodup.filter _ hw1
  have hagd : ∀ u ∈ passDels cfg events S,
      dget? (passSt1 cfg events S).synced u = dget? S u := by
    intro u hu
    obtain ⟨hS, hnot⟩ := (hmemdels u).mp hu
    have hnm : dget? (event_uids_map events) u = none :=
      (dget?_eq_none_iff _ u).mpr hnot
    have h2 := hlk1 u
    rw [hnm] at h2
    exact h2
  obtain ⟨d_c, d_u, d_d, d_e, d_ca, d_lk, d_wf⟩ :=
    delFold_spec cfg (passSt1 cfg events S).synced (passDels cfg events S)
      (passSt1 cfg events S) hdnd hw1 (fun u _ => rfl)
  refine ⟨passDels cfg events S, hmemdels, hdnd, ?_, ?_, ?_, ?_, ?_, ?_, ?_⟩
  · rw [sync_once_eq, d_c]
    have := e_c
    simpa using this
  · rw [sync_once_eq, d_u]
    have := e_u
    simpa using this
  · rw [sync_once_eq, d_d]
    have hfil : (passDels cfg events S).filter
        (fun u => (dget? (passSt1 cfg events S).synced u).isSome && ! cfg.deleteFails u)
        = (passDels cfg events S).filter (fun u => ! cfg.deleteFails u) := by
      apply list_filter_congr_mem
      intro u hu
      have h1 := hagd u hu
      have h2 : (dget? S u).isSome = true :=
        (dget?_isSome_iff S u).mpr ((hmemdels u).mp hu).1
      show ((dget? (passSt1 cfg events S).synced u).isSome && ! cfg.deleteFails u)
          = (! cfg.deleteFails u)
      rw [h1, h2, Bool.true_and]
    rw [hfil]
    have hd1 : (passSt1 cfg events S).deleted = 0 := by
      have := e_d
      simpa using this
    rw [hd1, Nat.zero_add]
  · rw [sync_once_eq, d_e]
    have hmape : (passDels cfg events S).map
        (deleteErrorsFor cfg (passSt1 cfg events S).synced)
        = (passDels cfg events S).map (deleteErrorsFor cfg S) := by
      apply list_map_congr_mem
      intro u hu
      unfold deleteErrorsFor
      rw [hagd u hu]
    rw [hmape]
    have he1 : (passSt1 cfg events S).errors
        = ((event_uids_map events).map (eventErrorsFor cfg S)).flatten := by
      have := e_e
      simpa using this
    rw [he1]
  · rw [sync_once_eq, d_ca]
    have hmapc : (passDels cfg events S).map
        (deleteCallsFor (passSt1 cfg events S).synced)
        = (passDels cfg events S).map (deleteCallsFor S) := by
      apply list_map_congr_mem
      intro u hu
      unfold deleteCallsFor
      rw [hagd u hu]
    rw [hmapc]
    have hc1 : (passSt1 cfg events S).calls
        = ((event_uids_map events).map (eventCallsFor cfg S)).flatten := by
      have := e_ca
      simpa using this
    rw [hc1]
  · intro u
    rw [sync_once_eq, d_lk u]
    cases hmu : dget? (event_uids_map events) u with
    | some e =>
      have hmem : u ∈ dkeys (event_uids_map events) := by
        rw [← dget?_isSome_iff]
        simp [hmu]
      have hnd : ¬ (u ∈ passDels cfg events S ∧ cfg.deleteFails u = false) := by
        rintro ⟨hd, -⟩
        exact ((hmemdels u).mp hd).2 hmem
      rw [if_neg hnd]
      have h2 := hlk1 u
      rw [hmu] at h2
      rw [h2]
      simp only [postPass, hmu]
    | none =>
      have hnot : u ∉ dkeys (event_uids_map events) := (dget?_eq_none_iff _ u).mp hmu
      have h2 := hlk1 u
      rw [hmu] at h2
      cases hsu : dget? S u with
      | some r =>
        have hS : u ∈ dkeys S := by
          rw [← dget?_isSome_iff]
          simp [hsu]
        have hmemd : u ∈ passDels cfg events S := (hmemdels u).mpr ⟨hS, hnot⟩
        by_cases hf : cfg.deleteFails u
        · rw [if_neg (by
            rintro ⟨-, hff⟩
            rw [hf] at hff
            exact Bool.noConfusion hff)]
          rw [h2, hsu]
          simp only [postPass, hmu, hsu]
          rw [if_pos hf]
        · rw [if_pos ⟨hmemd, by simp [hf]⟩]
          simp only [postPass, hmu, hsu]
          rw [if_neg hf]
      | none =>
        have hndl : ¬ (u ∈ passDels cfg events S ∧ cfg.deleteFails u = false) := by
          rintro ⟨hd, -⟩
          have hS := ((hmemdels u).mp hd).1
          rw [← dget?_isSome_iff] at hS
          simp [hsu] at hS
        rw [if_neg hndl, h2, hsu]
        simp only [postPass, hmu, hsu]
  · rw [sync_once_eq]
    exact d_wf

end Lambda

theorem flatten_eq_nil_of_forall {γ : Type u} (L : List (List γ))
    (h : ∀ x ∈ L, x = []) : L.flatten = [] := by
  induction L with
  | nil => rfl
  | cons a t ih =>
    rw [List.flatten_cons, h a (List.mem_cons_self a t),
      ih (fun x hx => h x (List.mem_cons_of_mem a hx)), List.nil_append]

namespace Lambda

/-- With create and update succeeding, the post-state of a processed
event key holds the current due string. -/
theorem postEvent_success (cfg : Cfg) (S : IdentitySet) (u : String) (e : Event)
    (hcf : cfg.createFails u = false) (huf : cfg.updateFails u = false) :
    ∃ r : Record, postEvent cfg S u e = some r ∧
      r.due = get_due_string e.start := by
  cases hsu : dget? S u with
  | none =>
    refine ⟨⟨cfg.newTaskId u, get_due_string e.start⟩, ?_, rfl⟩
    simp only [postEvent, hsu, hcf]
    simp
  | some r =>
    by_cases hd2 : r.due ≠ get_due_string e.start
    · by_cases hp : format_due_payload e.start = DuePayload.empty
      · refine ⟨⟨r.task_id, get_due_string e.start⟩, ?_, rfl⟩
        simp only [postEvent, hsu]
        rw [if_pos hd2, if_pos hp]
      · refine ⟨⟨r.task_id, get_due_string e.start⟩, ?_, rfl⟩
        simp only [postEvent, hsu]
        rw [if_pos hd2, if_neg hp, huf]
        simp
    · refine ⟨r, ?_, by push_neg at hd2; exact hd2⟩
      simp only [postEvent, hsu]
      rw [if_neg hd2]

/-- With every sink effect succeeding, the persisted state maps every
current event uid to a record whose fingerprint is the event's current
due string. -/
theorem pass_lookup_event (cfg : Cfg) (events : List Event) (S : IdentitySet)
    (hw : dwf S)
    (hcf : ∀ u, cfg.createFails u = false)
    (huf : ∀ u, cfg.updateFails u = false)
    (u : String) (e : Event)
    (hme : dget? (event_uids_map events) u = some e) :
    ∃ r : Record, dget? (sync_once cfg events S).synced u = some r ∧
      r.due = get_due_string e.start := by
  obtain ⟨dels, hdels, hdnd, hc, hu, hd, he, hca, hlk, hwf⟩ :=
    sync_once_spec cfg events S hw
  obtain ⟨r, hr, hdue⟩ := postEvent_success cfg S u e (hcf u) (huf u)
  refine ⟨r, ?_, hdue⟩
  rw [hlk u]
  unfold postPass
  rw [hme]
  exact hr

/-- With every delete succeeding, the persisted state drops every key
that has no current event. -/
theorem pass_lookup_stale (cfg : Cfg) (events : List Event) (S : IdentitySet)
    (hw : dwf S)
    (hdf : ∀ u, cfg.deleteFails u = false)
    (u : String)
    (hme : dget? (event_uids_map events) u = none) :
    dget? (sync_once cfg events S).synced u = none := by
  obtain ⟨dels, hdels, hdnd, hc, hu, hd, he, hca, hlk, hwf⟩ :=
    sync_once_spec cfg events S hw
  rw [hlk u]
  unfold postPass
  rw [hme]
  cases hsu : dget? S u with
  | none => rfl
  | some r => simp [hdf u]

/-- **C3**: For every calendar snapshot and prior state, if one sync pass
runs with every sink effect succeeding, a second pass over the same
snapshot and the state persisted by the first pass classifies no uid as
to-create, to-update or to-delete; its created, updated and deleted
counts are all zero and it attempts no sink call. -/
theorem C3_second_pass_idempotent (cfg : Cfg) (events : List Event)
    (S : IdentitySet) (hw : dwf S)
    (hcf : ∀ u, cfg.createFails u = false)
    (huf : ∀ u, cfg.updateFails u = false)
    (hdf : ∀ u, cfg.deleteFails u = false) :
    toCreate events (sync_once cfg events S).synced = [] ∧
    toUpdate events (sync_once cfg events S).synced = [] ∧
    toDelete events (sync_once cfg events S).synced = [] ∧
    (sync_once cfg events (sync_once cfg events S).synced).created = 0 ∧
    (sync_once cfg events (sync_once cfg events S).synced).updated = 0 ∧
    (sync_once cfg events (sync_once cfg events S).synced).deleted = 0 ∧
    (sync_once cfg events (sync_once cfg events S).synced).calls = [] := by
  have hwf : dwf (sync_once cfg events S).synced := by
    obtain ⟨-, -, -, -, -, -, -, -, -, h⟩ := sync_once_spec cfg events S hw
    exact h
  have hTC : toCreate events (sync_once cfg events S).synced = [] := by
    rw [List.eq_nil_iff_forall_not_mem]
    intro u hu
    obtain ⟨hmem, hnone⟩ := (mem_toCreate_iff _ _ u).mp hu
    obtain ⟨e, hme⟩ := Option.isSome_iff_exists.mp ((dget?_isSome_iff _ u).mpr hmem)
    obtain ⟨r, hr, -⟩ := pass_lookup_event cfg events S hw hcf huf u e hme
    rw [hnone] at hr
    exact Option.noConfusion hr
  have hTU : toUpdate events (sync_once cfg events S).synced = [] := by
    rw [List.eq_nil_iff_forall_not_mem]
    intro u hu
    obtain ⟨e, hme, r2, hr2, hne⟩ := (mem_toUpdate_iff _ _ u).mp hu
    obtain ⟨r, hr, hdue⟩ := pass_lookup_event cfg events S hw hcf huf u e hme
    rw [hr] at hr2
    obtain rfl : r = r2 := by simpa using hr2
    exact hne hdue
  have hTD : toDelete events (sync_once cfg events S).synced = [] := by
    rw [List.eq_nil_iff_forall_not_mem]
    intro u hu
    obtain ⟨hmem, hnot⟩ := (mem_toDelete_iff _ _ u).mp hu
    have hnone : dget? (event_uids_map events) u = none :=
      (dget?_eq_none_iff _ u).mpr hnot
    have h1 := pass_lookup_stale cfg events S hw hdf u hnone
    rw [← dget?_isSome_iff] at hmem
    simp [h1] at hmem
  obtain ⟨dels2, hdels2, hdnd2, hc2, hu2, hd2, he2, hca2, hlk2, hwf2⟩ :=
    sync_once_spec cfg events (sync_once cfg events S).synced hwf
  have hmm : ∀ p ∈ event_uids_map events,
      dget? (event_uids_map events) p.1 = some p.2 := by
    intro p hp
    exact (dget?_eq_some_iff_mem _ (dwf_event_uids_map events) _ _).mpr hp
  have hAp : ∀ p ∈ event_uids_map events,
      ∃ r : Record, dget? (sync_once cfg events S).synced p.1 = some r ∧
        r.due = get_due_string p.2.start := by
    intro p hp
    exact pass_lookup_event cfg events S hw hcf huf p.1 p.2 (hmm p hp)
  have hdels2nil : dels2 = [] := by
    rw [List.eq_nil_iff_forall_not_mem]
    intro u hu
    obtain ⟨hmem, hnot⟩ := (hdels2 u).mp hu
    have hnone : dget? (event_uids_map events) u = none :=
      (dget?_eq_none_iff _ u).mpr hnot
    have h1 := pass_lookup_stale cfg events S hw hdf u hnone
    rw [← dget?_isSome_iff] at hmem
    simp [h1] at hmem
  refine ⟨hTC, hTU, hTD, ?_, ?_, ?_, ?_⟩
  · rw [hc2]
    have : (event_uids_map events).filter
        (createSuccB cfg (sync_once cfg events S).synced) = [] := by
      rw [List.filter_eq_nil_iff]
      intro p hp
      obtain ⟨r, hr, -⟩ := hAp p hp
      simp [createSuccB, hr]
    rw [this]
    rfl
  · rw [hu2]
    have : (event_uids_map events).filter
        (updateSuccB cfg (sync_once cfg events S).synced) = [] := by
      rw [List.filter_eq_nil_iff]
      intro p hp
      obtain ⟨r, hr, hdue⟩ := hAp p hp
      simp [updateSuccB, hr, hdue]
    rw [this]
    rfl
  · rw [hd2, hdels2nil]
    rfl
  · rw [hca2, hdels2nil]
    have : ((event_uids_map events).map
        (eventCallsFor cfg (sync_once cfg events S).synced)).flatten = [] := by
      apply flatten_eq_nil_of_forall
      intro x hx
      obtain ⟨p, hp, rfl⟩ := List.mem_map.mp hx
      obtain ⟨r, hr, hdue⟩ := hAp p hp
      simp [eventCallsFor, hr, hdue]
    rw [this]
    rfl

/-- Witness for C3 at a concrete snapshot, state and all-succeeding sink. -/
theorem C3_second_pass_idempotent_witness :
    toCreate [⟨"e1", "Standup", some (DT.date 2024 6 1)⟩]
      (sync_once ⟨fun _ => false, fun _ => false, fun _ => false, fun u => u⟩
        [⟨"e1", "Standup", some (DT.date 2024 6 1)⟩]
        [("gone", ⟨"t9", none⟩)]).synced = [] ∧
    toUpdate [⟨"e1", "Standup", some (DT.date 2024 6 1)⟩]
      (sync_once ⟨fun _ => false, fun _ => false, fun _ => false, fun u => u⟩
        [⟨"e1", "Standup", some (DT.date 2024 6 1)⟩]
        [("gone", ⟨"t9", none⟩)]).synced = [] ∧
    toDelete [⟨"e1", "Standup", some (DT.date 2024 6 1)⟩]
      (sync_once ⟨fun _ => false, fun _ => false, fun _ => false, fun u => u⟩
        [⟨"e1", "Standup", some (DT.date 2024 6 1)⟩]
        [("gone", ⟨"t9", none⟩)]).synced = [] ∧
    (sync_once ⟨fun _ => false, fun _ => false, fun _ => false, fun u => u⟩
      [⟨"e1", "Standup", some (DT.date 2024 6 1)⟩]
      (sync_once ⟨fun _ => false, fun _ => false, fun _ => false, fun u => u⟩
        [⟨"e1", "Standup", some (DT.date 2024 6 1)⟩]
        [("gone", ⟨"t9", none⟩)]).synced).created = 0 ∧
    (sync_once ⟨fun _ => false, fun _ => false, fun _ => false, fun u => u⟩
      [⟨"e1", "Standup", some (DT.date 2024 6 1)⟩]
      (sync_once ⟨fun _ => false, fun _ => false, fun _ => false, fun u => u⟩
        [⟨"e1", "Standup", some (DT.date 2024 6 1)⟩]
        [("gone", ⟨"t9", none⟩)]).synced).updated = 0 ∧
    (sync_once ⟨fun _ => false, fun _ => false, fun _ => false, fun u => u⟩
      [⟨"e1", "Standup", some (DT.date 2024 6 1)⟩]
      (sync_once ⟨fun _ => false, fun _ => false, fun _ => false, fun u => u⟩
        [⟨"e1", "Standup", some (DT.date 2024 6 1)⟩]
        [("gone", ⟨"t9", none⟩)]).synced).deleted = 0 ∧
    (sync_once ⟨fun _ => false, fun _ => false, fun _ => false, fun u => u⟩
      [⟨"e1", "Standup", some (DT.date 2024 6 1)⟩]
      (sync_once ⟨fun _ => false, fun _ => false, fun _ => false, fun u => u⟩
        [⟨"e1", "Standup", some (DT.date 2024 6 1)⟩]
        [("gone", ⟨"t9", none⟩)]).synced).calls = [] :=
  C3_second_pass_idempotent
    ⟨fun _ => false, fun _ => false, fun _ => false, fun u => u⟩
    [⟨"e1", "Standup", some (DT.date 2024 6 1)⟩]
    [("gone", ⟨"t9", none⟩)]
    (by decide) (fun _ => rfl) (fun _ => rfl) (fun _ => rfl)

theorem uidOf_mem_eventCallsFor (cfg : Cfg) (S : IdentitySet) (p : String × Event)
    (c : SinkCall) (h : c ∈ eventCallsFor cfg S p) : SinkCall.uidOf c = p.1 := by
  unfold eventCallsFor at h
  cases hps : dget? S p.1 with
  | none =>
    simp only [hps] at h
    simp at h
    subst h
    rfl
  | some r =>
    simp only [hps] at h
    by_cases hcond : r.due ≠ get_due_string p.2.start ∧
        format_due_payload p.2.start ≠ DuePayload.empty
    · rw [if_pos hcond] at h
      simp at h
      subst h
      rfl
    · rw [if_neg hcond] at h
      simp at h

theorem uidOf_mem_deleteCallsFor (S : IdentitySet) (u : String) (c : SinkCall)
    (h : c ∈ deleteCallsFor S u) : SinkCall.uidOf c = u := by
  unfold deleteCallsFor at h
  cases hps : dget? S u with
  | none =>
    simp only [hps] at h
    simp at h
  | some r =>
    simp only [hps] at h
    simp at h
    subst h
    rfl

/-- **C6**: If the sink create call for an event fails, the pass records an
error for that uid and continues (the created count still counts every
other successful create), the identity state is left without an entry for
that uid, and a second pass over the same calendar classifies the uid as
to-create again and re-attempts the create call. -/
theorem C6_create_failure_isolated (cfg : Cfg) (events : List Event)
    (S : IdentitySet) (uid : String) (e : Event)
    (hw : dwf S)
    (hm : dget? (event_uids_map events) uid = some e)
    (hfresh : dget? S uid = none)
    (hfail : cfg.createFails uid = true) :
    ("create", uid) ∈ (sync_once cfg events S).errors ∧
    dget? (sync_once cfg events S).synced uid = none ∧
    (sync_once cfg events S).created
        = ((event_uids_map events).filter (createSuccB cfg S)).length ∧
    createSuccB cfg S (uid, e) = false ∧
    uid ∈ toCreate events (sync_once cfg events S).synced ∧
    SinkCall.create uid ∈
      (sync_once cfg events (sync_once cfg events S).synced).calls := by
  obtain ⟨dels, hdels, hdnd, hc, hu, hd, he, hca, hlk, hwf⟩ :=
    sync_once_spec cfg events S hw
  have hmem : (uid, e) ∈ event_uids_map events :=
    (dget?_eq_some_iff_mem _ (dwf_event_uids_map events) _ _).mp hm
  have hpe : postEvent cfg S uid e = none := by
    simp only [postEvent, hfresh, hfail]
    simp
  have hlkuid : dget? (sync_once cfg events S).synced uid = none := by
    rw [hlk uid]
    unfold postPass
    rw [hm]
    exact hpe
  have herr : ("create", uid) ∈ (sync_once cfg events S).errors := by
    rw [he]
    apply List.mem_append_left
    rw [List.mem_flatten]
    refine ⟨eventErrorsFor cfg S (uid, e), List.mem_map_of_mem _ hmem, ?_⟩
    simp [eventErrorsFor, hfresh, hfail]
  have hsucc : createSuccB cfg S (uid, e) = false := by
    simp [createSuccB, hfresh, hfail]
  have hmemk : uid ∈ dkeys (event_uids_map events) := by
    rw [← dget?_isSome_iff]
    simp [hm]
  have htc : uid ∈ toCreate events (sync_once cfg events S).synced :=
    (mem_toCreate_iff _ _ uid).mpr ⟨hmemk, hlkuid⟩
  obtain ⟨dels2, hdels2, hdnd2, hc2, hu2, hd2, he2, hca2, hlk2, hwf2⟩ :=
    sync_once_spec cfg events (sync_once cfg events S).synced hwf
  have hcall : SinkCall.create uid ∈
      (sync_once cfg events (sync_once cfg events S).synced).calls := by
    rw [hca2]
    apply List.mem_append_left
    rw [List.mem_flatten]
    refine ⟨eventCallsFor cfg (sync_once cfg events S).synced (uid, e),
      List.mem_map_of_mem _ hmem, ?_⟩
    simp [eventCallsFor, hlkuid]
  exact ⟨herr, hlkuid, hc, hsucc, htc, hcall⟩

/-- Witness for C6: one event whose create call fails (every create
fails in this sink). -/
theorem C6_create_failure_isolated_witness :
    ("create", "e1") ∈ (sync_once ⟨fun _ => true, fun _ => false, fun _ => false, fun u => u⟩
      [⟨"e1", "S", none⟩] []).errors ∧
    dget? (sync_once ⟨fun _ => true, fun _ => false, fun _ => false, fun u => u⟩
      [⟨"e1", "S", none⟩] []).synced "e1" = none ∧
    (sync_once ⟨fun _ => true, fun _ => false, fun _ => false, fun u => u⟩
      [⟨"e1", "S", none⟩] []).created
        = ((event_uids_map [⟨"e1", "S", none⟩]).filter
            (createSuccB ⟨fun _ => true, fun _ => false, fun _ => false, fun u => u⟩ [])).length ∧
    createSuccB ⟨fun _ => true, fun _ => false, fun _ => false, fun u => u⟩ []
      ("e1", ⟨"e1", "S", none⟩) = false ∧
    "e1" ∈ toCreate [⟨"e1", "S", none⟩]
      (sync_once ⟨fun _ => true, fun _ => false, fun _ => false, fun u => u⟩
        [⟨"e1", "S", none⟩] []).synced ∧
    SinkCall.create "e1" ∈
      (sync_once ⟨fun _ => true, fun _ => false, fun _ => false, fun u => u⟩
        [⟨"e1", "S", none⟩]
        (sync_once ⟨fun _ => true, fun _ => false, fun _ => false, fun u => u⟩
          [⟨"e1", "S", none⟩] []).synced).calls :=
  C6_create_failure_isolated
    ⟨fun _ => true, fun _ => false, fun _ => false, fun u => u⟩
    [⟨"e1", "S", none⟩] [] "e1" ⟨"e1", "S", none⟩
    (by decide) (by decide) (by decide) rfl

/-- **C7**: the dict passed to the unconditional `save_synced_tasks` call
(the final `.synced` of the pass) retains the outcome of every effect that
succeeded, whatever other effects failed: a successful create adds its
entry, a successful update rewrites the stored fingerprint, a successful
delete removes the entry. -/
theorem C7_persist_partial_progress (cfg : Cfg) (events : List Event)
    (S : IdentitySet) (hw : dwf S) :
    (∀ uid e, dget? (event_uids_map events) uid = some e →
        dget? S uid = none → cfg.createFails uid = false →
        dget? (sync_once cfg events S).synced uid
          = some ⟨cfg.newTaskId uid, get_due_string e.start⟩) ∧
    (∀ uid e r, dget? (event_uids_map events) uid = some e →
        dget? S uid = some r → r.due ≠ get_due_string e.start →
        format_due_payload e.start ≠ DuePayload.empty →
        cfg.updateFails uid = false →
        dget? (sync_once cfg events S).synced uid
          = some ⟨r.task_id, get_due_string e.start⟩) ∧
    (∀ uid, dget? (event_uids_map events) uid = none →
        cfg.deleteFails uid = false →
        dget? (sync_once cfg events S).synced uid = none) := by
  obtain ⟨dels, hdels, hdnd, hc, hu, hd, he, hca, hlk, hwf⟩ :=
    sync_once_spec cfg events S hw
  refine ⟨?_, ?_, ?_⟩
  · intro uid e hm hfresh hok
    rw [hlk uid]
    unfold postPass
    rw [hm]
    show postEvent cfg S uid e = _
    simp only [postEvent, hfresh, hok]
    simp
  · intro uid e r hm hr hne hp hok
    rw [hlk uid]
    unfold postPass
    rw [hm]
    show postEvent cfg S uid e = _
    simp only [postEvent, hr]
    rw [if_pos hne, if_neg hp, hok]
    simp
  · intro uid hm hok
    rw [hlk uid]
    unfold postPass
    rw [hm]
    cases hsu : dget? S uid with
    | none => rfl
    | some r => simp [hok]

/-- Witness for C7: a successful create and a successful delete are both
reflected in the persisted dict. -/
theorem C7_persist_partial_progress_witness :
    dget? (sync_once ⟨fun _ => false, fun _ => false, fun _ => false, fun u => u⟩
      [⟨"e1", "S", none⟩] [("gone", ⟨"t9", none⟩)]).synced "e1"
        = some ⟨"e1", none⟩ ∧
    dget? (sync_once ⟨fun _ => false, fun _ => false, fun _ => false, fun u => u⟩
      [⟨"e1", "S", none⟩] [("gone", ⟨"t9", none⟩)]).synced "gone" = none :=
  ⟨(C7_persist_partial_progress
      ⟨fun _ => false, fun _ => false, fun _ => false, fun u => u⟩
      [⟨"e1", "S", none⟩] [("gone", ⟨"t9", none⟩)] (by decide)).1
      "e1" ⟨"e1", "S", none⟩ (by decide) (by decide) rfl,
   (C7_persist_partial_progress
      ⟨fun _ => false, fun _ => false, fun _ => false, fun u => u⟩
      [⟨"e1", "S", none⟩] [("gone", ⟨"t9", none⟩)] (by decide)).2.2
      "gone" (by decide) rfl⟩

/-- **C9**: For a synced uid whose current event has no start while the
stored fingerprint is non-null, the pass issues no sink call for that uid
(the update returns early on the empty due payload), yet the update
counter counts it and the stored fingerprint is overwritten with null. -/
theorem C9_null_due_update_skips_sink (cfg : Cfg) (events : List Event)
    (S : IdentitySet) (uid : String) (e : Event) (r : Record)
    (hw : dwf S)
    (hm : dget? (event_uids_map events) uid = some e)
    (hstart : e.start = none)
    (hr : dget? S uid = some r)
    (hdue : r.due ≠ none) :
    (∀ c ∈ (sync_once cfg events S).calls, SinkCall.uidOf c ≠ uid) ∧
    updateSuccB cfg S (uid, e) = true ∧
    (sync_once cfg events S).updated
        = ((event_uids_map events).filter (updateSuccB cfg S)).length ∧
    0 < (sync_once cfg events S).updated ∧
    dget? (sync_once cfg events S).synced uid = some ⟨r.task_id, none⟩ := by
  obtain ⟨dels, hdels, hdnd, hc, hu, hd, he, hca, hlk, hwf⟩ :=
    sync_once_spec cfg events S hw
  have hmemm : (uid, e) ∈ event_uids_map events :=
    (dget?_eq_some_iff_mem _ (dwf_event_uids_map events) _ _).mp hm
  have hgds : get_due_string e.start = none := by
    rw [hstart]
    rfl
  have hfp : format_due_payload e.start = DuePayload.empty := by
    rw [hstart]
    rfl
  have hmemk : uid ∈ dkeys (event_uids_map events) := by
    rw [← dget?_isSome_iff]
    simp [hm]
  have hsucc : updateSuccB cfg S (uid, e) = true := by
    simp [updateSuccB, hr, hgds, hdue, hfp]
  have hnocall : ∀ c ∈ (sync_once cfg events S).calls, SinkCall.uidOf c ≠ uid := by
    intro c hcmem
    rw [hca] at hcmem
    rcases List.mem_append.mp hcmem with hev | hdel
    · rw [List.mem_flatten] at hev
      obtain ⟨l, hl, hcl⟩ := hev
      obtain ⟨p, hp, rfl⟩ := List.mem_map.mp hl
      by_cases hpu : p.1 = uid
      · have h2 : dget? (event_uids_map events) uid = some p.2 := by
          rw [← hpu]
          exact (dget?_eq_some_iff_mem _ (dwf_event_uids_map events) _ _).mpr hp
        rw [hm] at h2
        have hpe : p.2 = e := (Option.some.inj h2).symm
        have hnil : eventCallsFor cfg S p = [] := by
          unfold eventCallsFor
          rw [hpu]
          simp only [hr]
          rw [if_neg (by
            rintro ⟨-, hne⟩
            rw [hpe, hfp] at hne
            exact hne rfl)]
        rw [hnil] at hcl
        exact absurd hcl (List.not_mem_nil c)
      · rw [uidOf_mem_eventCallsFor cfg S p c hcl]
        exact hpu
    · rw [List.mem_flatten] at hdel
      obtain ⟨l, hl, hcl⟩ := hdel
      obtain ⟨u2, hu2, rfl⟩ := List.mem_map.mp hl
      rw [uidOf_mem_deleteCallsFor S u2 c hcl]
      intro hequ
      exact ((hdels u2).mp hu2).2 (hequ ▸ hmemk)
  have hpos : 0 < (sync_once cfg events S).updated := by
    rw [hu]
    have hmemf : (uid, e) ∈ (event_uids_map events).filter (updateSuccB cfg S) :=
      List.mem_filter.mpr ⟨hmemm, hsucc⟩
    exact List.length_pos.mpr (List.ne_nil_of_mem hmemf)
  have hlkuid : dget? (sync_once cfg events S).synced uid = some ⟨r.task_id, none⟩ := by
    rw [hlk uid]
    unfold postPass
    rw [hm]
    show postEvent cfg S uid e = _
    simp only [postEvent, hr, hgds]
    rw [if_pos hdue, if_pos hfp]
  exact ⟨hnocall, hsucc, hu, hpos, hlkuid⟩

/-- Witness for C9: the update-eligible uid with no current start gets no
sink call, is counted as updated, and its fingerprint becomes null. -/
theorem C9_null_due_update_skips_sink_witness :
    updateSuccB ⟨fun _ => false, fun _ => false, fun _ => false, fun u => u⟩
      [("e1", ⟨"t1", some "2024-06-01"⟩)] ("e1", ⟨"e1", "S", none⟩) = true ∧
    0 < (sync_once ⟨fun _ => false, fun _ => false, fun _ => false, fun u => u⟩
      [⟨"e1", "S", none⟩] [("e1", ⟨"t1", some "2024-06-01"⟩)]).updated ∧
    dget? (sync_once ⟨fun _ => false, fun _ => false, fun _ => false, fun u => u⟩
      [⟨"e1", "S", none⟩] [("e1", ⟨"t1", some "2024-06-01"⟩)]).synced "e1"
        = some ⟨"t1", none⟩ :=
  ⟨(C9_null_due_update_skips_sink
      ⟨fun _ => false, fun _ => false, fun _ => false, fun u => u⟩
      [⟨"e1", "S", none⟩] [("e1", ⟨"t1", some "2024-06-01"⟩)]
      "e1" ⟨"e1", "S", none⟩ ⟨"t1", some "2024-06-01"⟩
      (by decide) (by decide) rfl (by decide) (by decide)).2.1,
   (C9_null_due_update_skips_sink
      ⟨fun _ => false, fun _ => false, fun _ => false, fun u => u⟩
      [⟨"e1", "S", none⟩] [("e1", ⟨"t1", some "2024-06-01"⟩)]
      "e1" ⟨"e1", "S", none⟩ ⟨"t1", some "2024-06-01"⟩
      (by decide) (by decide) rfl (by decide) (by decide)).2.2.2.1,
   (C9_null_due_update_skips_sink
      ⟨fun _ => false, fun _ => false, fun _ => false, fun u => u⟩
      [⟨"e1", "S", none⟩] [("e1", ⟨"t1", some "2024-06-01"⟩)]
      "e1" ⟨"e1", "S", none⟩ ⟨"t1", some "2024-06-01"⟩
      (by decide) (by decide) rfl (by decide) (by decide)).2.2.2.2⟩

/-- Counterexample to C5 as stated over the Lambda variant: a pass over
one event with empty uid issues a sink create call for it, counts it as
created, and adds a state entry for it (there is no empty-uid exclusion
in `sync_once` / `fetch_ical_events`). -/
theorem C5_counterexample :
    (sync_once ⟨fun _ => false, fun _ => false, fun _ => false, fun _ => "t1"⟩
      [⟨"", "NoUid", none⟩] []).calls = [SinkCall.create ""] ∧
    (sync_once ⟨fun _ => false, fun _ => false, fun _ => false, fun _ => "t1"⟩
      [⟨"", "NoUid", none⟩] []).created = 1 ∧
    dget? (sync_once ⟨fun _ => false, fun _ => false, fun _ => false, fun _ => "t1"⟩
      [⟨"", "NoUid", none⟩] []).synced "" = some ⟨"t1", none⟩ := by
  decide

end Lambda

theorem string_append_empty (s : String) : s ++ "" = s := by
  cases s with
  | mk data =>
    show String.mk (data ++ []) = String.mk data
    rw [List.append_nil]

/-- Counterexample to C2 as stated: the due fingerprint of a timestamped
value (`get_due_string`, which uses `isoformat()`) carries a `+00:00`
offset, not a literal `Z` suffix, and keeps microsecond digits when they
are nonzero; only the API payload (`format_due_payload`) renders with
second precision and `Z`. -/
theorem C2_counterexample :
    Lambda.get_due_string (some (DT.datetime 2024 6 1 10 0 0 0 (some 0)))
      = some "2024-06-01T10:00:00+00:00" ∧
    Lambda.get_due_string (some (DT.datetime 2024 6 1 10 0 0 0 (some 0)))
      ≠ some "2024-06-01T10:00:00Z" ∧
    Lambda.get_due_string (some (DT.datetime 2024 6 1 10 0 0 123456 (some 0)))
      = some "2024-06-01T10:00:00.123456+00:00" := by
  decide

/-- **C2 (amended)**: the due-fingerprint normalization maps a
calendar-date value to its canonical `YYYY-MM-DD` string (identical to the
API payload's date rendering); a timestamped value is converted to UTC by
both renderers over the same civil time, the fingerprint carrying a
`+00:00` offset where the API payload carries the literal `Z`; and two due
values are considered equal for change detection exactly when their
normalized fingerprint strings are identical. -/
theorem C2_due_normalization_amended :
    (∀ y m d : Int,
      Lambda.get_due_string (some (DT.date y m d)) = some (isoDate y m d) ∧
      Lambda.format_due_payload (some (DT.date y m d))
        = Lambda.DuePayload.due_date (isoDate y m d)) ∧
    (∀ (y m d hh mi ss : Int) (tz : Option Int), ∃ s : String,
      Lambda.get_due_string (some (DT.datetime y m d hh mi ss 0 tz))
        = some (s ++ "+00:00") ∧
      Lambda.format_due_payload (some (DT.datetime y m d hh mi ss 0 tz))
        = Lambda.DuePayload.due_datetime (s ++ "Z")) ∧
    (∀ (S : Lambda.IdentitySet) (p : String × Lambda.Event) (r : Lambda.Record),
      dget? S p.1 = some r →
      (Lambda.updateEligible S p = false ↔
        r.due = Lambda.get_due_string p.2.start)) := by
  refine ⟨?_, ?_, ?_⟩
  · intro y m d
    exact ⟨rfl, rfl⟩
  · intro y m d hh mi ss tz
    refine ⟨basicDT (toUTC y m d hh mi ss tz), ?_, rfl⟩
    have h1 : isoformatUTC (toUTC y m d hh mi ss tz) 0
        = basicDT (toUTC y m d hh mi ss tz) ++ "+00:00" := by
      unfold isoformatUTC
      rw [if_pos rfl, string_append_empty]
    show some (isoformatUTC (toUTC y m d hh mi ss tz) 0) = _
    rw [h1]
  · intro S p r hr
    simp [Lambda.updateEligible, hr]

/-- Witness for C2 (amended): concrete date normalization and a concrete
change-detection comparison. -/
theorem C2_due_normalization_amended_witness :
    (Lambda.get_due_string (some (DT.date 2024 6 1)) = some (isoDate 2024 6 1) ∧
      Lambda.format_due_payload (some (DT.date 2024 6 1))
        = Lambda.DuePayload.due_date (isoDate 2024 6 1)) ∧
    (Lambda.updateEligible [("e1", ⟨"t1", some "2024-06-01"⟩)]
        ("e1", ⟨"e1", "S", some (DT.date 2024 6 1)⟩) = false ↔
      (⟨"t1", some "2024-06-01"⟩ : Lambda.Record).due
        = Lambda.get_due_string
            ((⟨"e1", "S", some (DT.date 2024 6 1)⟩ : Lambda.Event)).start) :=
  ⟨C2_due_normalization_amended.1 2024 6 1,
   C2_due_normalization_amended.2.2
     [("e1", ⟨"t1", some "2024-06-01"⟩)]
     ("e1", ⟨"e1", "S", some (DT.date 2024 6 1)⟩)
     ⟨"t1", some "2024-06-01"⟩ (by decide)⟩

namespace Lambda

theorem decodeRecord_encodeRecord (r : Record) :
    decodeRecord (encodeRecord r) = some r := by
  cases r with
  | mk t due => cases due <;> rfl

theorem dinsert_eq_append [DecidableEq α] (m : List (α × β)) (k : α) (b : β)
    (h : k ∉ dkeys m) : dinsert m k b = m ++ [(k, b)] := by
  induction m with
  | nil => rfl
  | cons p t ih =>
    obtain ⟨k2, v2⟩ := p
    have h2 : ¬ (k = k2 ∨ k ∈ dkeys t) := by simpa [dkeys] using h
    push_neg at h2
    have hne : ¬ (k2 = k) := fun he => h2.1 he.symm
    simp [dinsert, hne, ih h2.2]

theorem decodeStep_some (m2 : IdentitySet) (p : String × JVal) (r : Record)
    (h : decodeRecord p.2 = some r) :
    decodeStep (some m2) p = some (dinsert m2 p.1 r) := by
  unfold decodeStep
  rw [h]

/-- **C8**: saving an identity mapping to the store and loading it back
yields an equal mapping. -/
theorem C8_save_load_roundtrip (m : IdentitySet) (hw : dwf m) :
    load_synced_tasks (some (save_synced_tasks m)) = m := by
  have key : ∀ (l : IdentitySet) (acc : IdentitySet), dwf (acc ++ l) →
      ((l.map (fun p => (p.1, encodeRecord p.2))).foldl decodeStep (some acc))
        = some (acc ++ l) := by
    intro l
    induction l with
    | nil =>
      intro acc _
      simp
    | cons p t ih =>
      obtain ⟨k, r⟩ := p
      intro acc hwa
      have hkeys : dkeys (acc ++ (k, r) :: t) = dkeys acc ++ k :: dkeys t := by
        simp [dkeys]
      have hnd : (dkeys acc ++ k :: dkeys t).Nodup := by
        rw [dwf, hkeys] at hwa
        exact hwa
      have hk : k ∉ dkeys acc := by
        have hdisj := (List.nodup_append.mp hnd).2.2
        intro hmem
        exact hdisj hmem (List.mem_cons_self k _)
      have hwa2 : dwf ((acc ++ [(k, r)]) ++ t) := by
        rw [List.append_assoc]
        simpa using hwa
      rw [List.map_cons, List.foldl_cons,
        decodeStep_some acc (k, encodeRecord r) r (decodeRecord_encodeRecord r),
        dinsert_eq_append acc k r hk, ih (acc ++ [(k, r)]) hwa2,
        List.append_assoc]
      rfl
  have h2 := key m [] (by simpa using hw)
  show ((m.map (fun p => (p.1, encodeRecord p.2))).foldl decodeStep (some [])).getD []
      = m
  rw [h2]
  rfl

/-- Witness for C8 at a concrete mapping with both a string and a null
due fingerprint. -/
theorem C8_save_load_roundtrip_witness :
    dwf ([("e1", ⟨"t1", some "2024-06-01"⟩), ("e2", ⟨"t2", none⟩)] : IdentitySet) ∧
    load_synced_tasks (some (save_synced_tasks
        [("e1", ⟨"t1", some "2024-06-01"⟩), ("e2", ⟨"t2", none⟩)]))
      = [("e1", ⟨"t1", some "2024-06-01"⟩), ("e2", ⟨"t2", none⟩)] :=
  ⟨by decide,
   C8_save_load_roundtrip
     [("e1", ⟨"t1", some "2024-06-01"⟩), ("e2", ⟨"t2", none⟩)] (by decide)⟩

end Lambda

theorem string_mk_data (s : String) : String.mk s.data = s := rfl

set_option maxRecDepth 10000

/-- Counterexample to C4 as stated: the `location` field is rendered into
the task content in full — it is never truncated to 120 characters nor
given an ellipsis marker (only `description` is).  With a 200-character
location both the create and the update content contain all 200
characters, and differ from the truncated rendering the claim requires. -/
theorem C4_counterexample :
    CLI.create_task_content "ICUID:"
        ⟨"u", "T", "", String.mk (List.replicate 200 'a'), none, none⟩
      = "T — @" ++ String.mk (List.replicate 200 'a') ++ " (ICUID:u)" ∧
    CLI.create_task_content "ICUID:"
        ⟨"u", "T", "", String.mk (List.replicate 200 'a'), none, none⟩
      ≠ "T — @" ++ (String.mk (List.replicate 120 'a') ++ "...") ++ " (ICUID:u)" ∧
    CLI.update_task_content "ICUID:"
        ⟨"u", "T", "", String.mk (List.replicate 200 'a'), none, none⟩
      = "T — @" ++ String.mk (List.replicate 200 'a') ++ " (ICUID:u)" := by
  decide

/-- **C4 (amended)**: in both the create and the update payload (whose
content constructions are identical), the description is truncated to at
most 120 characters with an ellipsis appended exactly when it is longer
than 120; the location is rendered in full (prefixed with `@`), never
truncated. -/
theorem C4_description_truncated_location_full (marker : String)
    (ev : CLI.CEvent) (hloc : ev.location ≠ "") (hdesc : ev.description ≠ "") :
    CLI.create_task_content marker ev = CLI.update_task_content marker ev ∧
    CLI.create_task_content marker ev
      = ((if ev.summary = "" then "Untitled event" else ev.summary) ++ " — "
          ++ ("@" ++ ev.location ++ " | " ++ CLI.renderDesc ev.description))
        ++ (" (" ++ marker ++ ev.uid ++ ")") ∧
    (CLI.renderDesc ev.description).length ≤ 123 ∧
    (ev.description.length ≤ 120 → CLI.renderDesc ev.description = ev.description) := by
  refine ⟨rfl, ?_, ?_, ?_⟩
  · unfold CLI.create_task_content CLI.content_for_event
    simp only [if_neg hloc, if_neg hdesc]
    rw [if_neg (by simp)]
    rfl
  · unfold CLI.renderDesc CLI.pyslice
    rw [String.length_append]
    have h1 : (String.mk (ev.description.data.take 120)).length
        = min 120 ev.description.data.length := by
      show (ev.description.data.take 120).length = _
      rw [List.length_take]
    rw [h1]
    by_cases h : 120 < ev.description.length
    · rw [if_pos h]
      have h3 : ("..." : String).length = 3 := rfl
      rw [h3]
      omega
    · rw [if_neg h]
      have h3 : ("" : String).length = 0 := rfl
      rw [h3]
      omega
  · intro hle
    have h120 : ¬ 120 < ev.description.length := by omega
    unfold CLI.renderDesc CLI.pyslice
    rw [if_neg h120, string_append_empty,
      List.take_of_length_le (show ev.description.data.length ≤ 120 from hle),
      string_mk_data]

/-- Witness for C4 (amended) at a concrete event with nonempty location
and description. -/
theorem C4_description_truncated_location_full_witness :
    CLI.create_task_content "M:" ⟨"u", "T", "desc", "loc", none, none⟩
      = CLI.update_task_content "M:" ⟨"u", "T", "desc", "loc", none, none⟩ ∧
    CLI.create_task_content "M:" ⟨"u", "T", "desc", "loc", none, none⟩
      = ((if ("T" : String) = "" then "Untitled event" else "T") ++ " — "
          ++ ("@" ++ "loc" ++ " | " ++ CLI.renderDesc "desc"))
        ++ (" (" ++ "M:" ++ "u" ++ ")") ∧
    (CLI.renderDesc "desc").length ≤ 123 :=
  ⟨(C4_description_truncated_location_full "M:"
      ⟨"u", "T", "desc", "loc", none, none⟩ (by decide) (by decide)).1,
   (C4_description_truncated_location_full "M:"
      ⟨"u", "T", "desc", "loc", none, none⟩ (by decide) (by decide)).2.1,
   (C4_description_truncated_location_full "M:"
      ⟨"u", "T", "desc", "loc", none, none⟩ (by decide) (by decide)).2.2.1⟩

namespace CLI

theorem processCliEvent_noupd (args : Args) (existing : List (String × TTask))
    (st : CliSt) (ev : CEvent) (hue : args.update_existing = false) :
    (processCliEvent args existing st ev).updated = st.updated ∧
    (processCliEvent args existing st ev).skipped
      = st.skipped
        + (if ev.uid = "" ∨ (dget? existing ev.uid).isSome then 1 else 0) ∧
    ((processCliEvent args existing st ev).calls = st.calls ∨
      (processCliEvent args existing st ev).calls
        = st.calls ++ [CliCall.create ev.uid]) := by
  unfold processCliEvent
  by_cases huid : ev.uid = ""
  · simp [huid]
  · rw [if_neg huid]
    cases hex : dget? existing ev.uid with
    | some t =>
      rw [hue]
      simp [huid, hex]
    | none =>
      by_cases hdry : args.dry_run
      · simp [huid, hex, hdry]
      · by_cases hcf : args.createFails ev.uid <;> simp [huid, hex, hdry, hcf]

theorem main_loop_noupd_aux (args : Args) (existing : List (String × TTask))
    (hue : args.update_existing = false) :
    ∀ (events : List CEvent) (st : CliSt),
      (events.foldl (processCliEvent args existing) st).updated = st.updated ∧
      (events.foldl (processCliEvent args existing) st).skipped
        = st.skipped + (events.filter (fun ev =>
            decide (ev.uid = "") || (dget? existing ev.uid).isSome)).length ∧
      (∀ c ∈ (events.foldl (processCliEvent args existing) st).calls,
        c ∈ st.calls ∨ ∃ u, c = CliCall.create u) := by
  intro events
  induction events with
  | nil =>
    intro st
    exact ⟨rfl, by simp, fun c hc => Or.inl hc⟩
  | cons e t ih =>
    intro st
    obtain ⟨iu, isk, ica⟩ := ih (processCliEvent args existing st e)
    obtain ⟨su, ssk, sca⟩ := processCliEvent_noupd args existing st e hue
    refine ⟨?_, ?_, ?_⟩
    · rw [List.foldl_cons, iu, su]
    · rw [List.foldl_cons, isk, ssk, List.filter_cons]
      by_cases h : e.uid = "" ∨ (dget? existing e.uid).isSome
      · have hb : (decide (e.uid = "") || (dget? existing e.uid).isSome) = true := by
          rcases h with h | h
          · simp [h]
          · simp [h]
        rw [hb, if_pos h]
        simp
        omega
      · have hb : (decide (e.uid = "") || (dget? existing e.uid).isSome) = false := by
          push_neg at h
          simp [h.1, h.2]
        rw [hb, if_neg h]
        simp
    · intro c hc
      rw [List.foldl_cons] at hc
      rcases ica c hc with hmem | hnew
      · rcases sca with hsc | hsc
        · rw [hsc] at hmem
          exact Or.inl hmem
        · rw [hsc] at hmem
          rcases List.mem_append.mp hmem with h2 | h2
          · exact Or.inl h2
          · right
            refine ⟨e.uid, ?_⟩
            simpa using h2
      · exact Or.inr hnew

/-- **C10**: when the `--update-existing` flag is not set, every event
whose uid has an existing marker-matched task is counted as skipped, no
sink update call is issued and the updated count stays zero, regardless
of any content or due-date difference between event and task. -/
theorem C10_no_update_without_flag (args : Args)
    (existing : List (String × TTask)) (events : List CEvent)
    (hue : args.update_existing = false) :
    (main_loop args existing events).updated = 0 ∧
    (main_loop args existing events).skipped
      = (events.filter (fun ev =>
          decide (ev.uid = "") || (dget? existing ev.uid).isSome)).length ∧
    (∀ c ∈ (main_loop args existing events).calls,
      ∀ u tid, c ≠ CliCall.update u tid) := by
  obtain ⟨hu, hsk, hca⟩ := main_loop_noupd_aux args existing hue events ⟨0, 0, 0, []⟩
  refine ⟨hu, by simpa using hsk, ?_⟩
  intro c hc u tid
  rcases hca c hc with hmem | ⟨u2, rfl⟩
  · exact absurd hmem (List.not_mem_nil c)
  · intro heq
    exact CliCall.noConfusion heq

/-- Witness for C10: a due-date difference and a content difference are
both ignored when the flag is off — the pass only skips. -/
theorem C10_no_update_without_flag_witness :
    (main_loop ⟨"ICUID:", false, false, fun _ => false, fun _ => false⟩
      [("e1", ⟨"t1", "old content", some "2024-05-30", none⟩)]
      [⟨"e1", "Standup", "", "", some (DT.date 2024 6 1), none⟩]).updated = 0 ∧
    (main_loop ⟨"ICUID:", false, false, fun _ => false, fun _ => false⟩
      [("e1", ⟨"t1", "old content", some "2024-05-30", none⟩)]
      [⟨"e1", "Standup", "", "", some (DT.date 2024 6 1), none⟩]).skipped
      = (([⟨"e1", "Standup", "", "", some (DT.date 2024 6 1), none⟩] : List CEvent).filter
          (fun ev => decide (ev.uid = "")
            || (dget? [("e1", (⟨"t1", "old content", some "2024-05-30", none⟩ : TTask))]
                  ev.uid).isSome)).length :=
  ⟨(C10_no_update_without_flag
      ⟨"ICUID:", false, false, fun _ => false, fun _ => false⟩
      [("e1", ⟨"t1", "old content", some "2024-05-30", none⟩)]
      [⟨"e1", "Standup", "", "", some (DT.date 2024 6 1), none⟩] rfl).1,
   (C10_no_update_without_flag
      ⟨"ICUID:", false, false, fun _ => false, fun _ => false⟩
      [("e1", ⟨"t1", "old content", some "2024-05-30", none⟩)]
      [⟨"e1", "Standup", "", "", some (DT.date 2024 6 1), none⟩] rfl).2.1⟩

theorem bumpSkip_zero (st : CliSt) : bumpSkip 0 st = st := by
  obtain ⟨c, s, u, cal⟩ := st
  simp [bumpSkip]

theorem bumpSkip_bumpSkip (a b : Nat) (st : CliSt) :
    bumpSkip a (bumpSkip b st) = bumpSkip (b + a) st := by
  obtain ⟨c, s, u, cal⟩ := st
  simp [bumpSkip, Nat.add_assoc]

theorem processCliEvent_bumpSkip (args : Args) (existing : List (String × TTask))
    (st : CliSt) (ev : CEvent) (n : Nat) :
    processCliEvent args existing (bumpSkip n st) ev
      = bumpSkip n (processCliEvent args existing st ev) := by
  obtain ⟨c, s, u, cal⟩ := st
  unfold processCliEvent bumpSkip
  by_cases huid : ev.uid = ""
  · simp [huid]
    omega
  · rw [if_neg huid, if_neg huid]
    cases hex : dget? existing ev.uid with
    | some t =>
      by_cases hup : args.update_existing
      · by_cases hnu : need_update args.marker t ev
        · by_cases hdry : args.dry_run
          · simp [hup, hnu, hdry]
          · by_cases huf : args.updateFails ev.uid <;> simp [hup, hnu, hdry, huf]
        · simp [hup, hnu]
          omega
      · simp [hup]
        omega
    | none =>
      by_cases hdry : args.dry_run
      · simp [hdry]
      · by_cases hcf : args.createFails ev.uid <;> simp [hdry, hcf]

theorem foldl_bumpSkip (args : Args) (existing : List (String × TTask)) :
    ∀ (events : List CEvent) (st : CliSt) (n : Nat),
      events.foldl (processCliEvent args existing) (bumpSkip n st)
        = bumpSkip n (events.foldl (processCliEvent args existing) st) := by
  intro events
  induction events with
  | nil => intro st n; rfl
  | cons e t ih =>
    intro st n
    rw [List.foldl_cons, List.foldl_cons, processCliEvent_bumpSkip, ih]

theorem main_fold_skip_empty (args : Args) (existing : List (String × TTask)) :
    ∀ (events : List CEvent) (st : CliSt),
      events.foldl (processCliEvent args existing) st
        = bumpSkip ((events.filter (fun ev => decide (ev.uid = ""))).length)
            ((events.filter (fun ev => decide (ev.uid ≠ ""))).foldl
              (processCliEvent args existing) st) := by
  intro events
  induction events with
  | nil =>
    intro st
    simp [bumpSkip_zero]
  | cons e t ih =>
    intro st
    by_cases huid : e.uid = ""
    · have hstep : processCliEvent args existing st e = bumpSkip 1 st := by
        unfold processCliEvent bumpSkip
        rw [if_pos huid]
      have hp1 : (decide (e.uid = "")) = true := by simp [huid]
      have hp2 : (decide (e.uid ≠ "")) = false := by simp [huid]
      rw [List.foldl_cons, hstep, List.filter_cons, List.filter_cons, hp1, hp2,
        if_pos rfl, if_neg (by simp)]
      rw [foldl_bumpSkip, ih st, bumpSkip_bumpSkip]
      simp
    · have hp1 : (decide (e.uid = "")) = false := by simp [huid]
      have hp2 : (decide (e.uid ≠ "")) = true := by simp [huid]
      rw [List.foldl_cons, List.filter_cons, List.filter_cons, hp1, hp2,
        if_neg (by simp), if_pos rfl]
      rw [List.foldl_cons, ih (processCliEvent args existing st e)]

theorem processCliEvent_calls_sub (args : Args) (existing : List (String × TTask))
    (st : CliSt) (ev : CEvent) :
    (processCliEvent args existing st ev).calls = st.calls ∨
    (ev.uid ≠ "" ∧ ∃ c2, CliCall.uidOf c2 = ev.uid ∧
      (processCliEvent args existing st ev).calls = st.calls ++ [c2]) := by
  unfold processCliEvent
  by_cases huid : ev.uid = ""
  · left
    rw [if_pos huid]
  · rw [if_neg huid]
    cases hex : dget? existing ev.uid with
    | some t =>
      by_cases hup : args.update_existing
      · by_cases hnu : need_update args.marker t ev
        · by_cases hdry : args.dry_run
          · left
            simp [hup, hnu, hdry]
          · right
            refine ⟨huid, CliCall.update ev.uid t.id, rfl, ?_⟩
            by_cases huf : args.updateFails ev.uid <;> simp [hup, hnu, hdry, huf]
        · left
          simp [hup, hnu]
      · left
        simp [hup]
    | none =>
      by_cases hdry : args.dry_run
      · left
        simp [hdry]
      · right
        refine ⟨huid, CliCall.create ev.uid, rfl, ?_⟩
        by_cases hcf : args.createFails ev.uid <;> simp [hdry, hcf]

theorem main_fold_calls_uid_nonempty (args : Args)
    (existing : List (String × TTask)) :
    ∀ (events : List CEvent) (st : CliSt),
      (∀ c ∈ st.calls, CliCall.uidOf c ≠ "") →
      ∀ c ∈ (events.foldl (processCliEvent args existing) st).calls,
        CliCall.uidOf c ≠ "" := by
  intro events
  induction events with
  | nil =>
    intro st h
    exact h
  | cons e t ih =>
    intro st h
    rw [List.foldl_cons]
    refine ih (processCliEvent args existing st e) ?_
    intro c hc
    rcases processCliEvent_calls_sub args existing st e with hsc | ⟨hne, c2, hcu, hsc⟩
    · rw [hsc] at hc
      exact h c hc
    · rw [hsc] at hc
      rcases List.mem_append.mp hc with h2 | h2
      · exact h c h2
      · have : c = c2 := by simpa using h2
        rw [this, hcu]
        exact hne

end CLI

/-- **C5 (amended)**: in the CLI variant, events with empty uid are
excluded from reconciliation: a pass over the full event list equals the
pass over the non-empty-uid events in created/updated counts and in the
sink-call trace, with the skipped count additionally counting each
empty-uid event; moreover no sink call ever carries an empty uid (so no
create/update is made for such an event and no marker identity can arise
for it).  The Lambda variant has no such exclusion (see the
counterexample). -/
theorem C5_cli_empty_uid_skipped (args : CLI.Args)
    (existing : List (String × CLI.TTask)) (events : List CLI.CEvent) :
    (CLI.main_loop args existing events).created
      = (CLI.main_loop args existing
          (events.filter (fun ev => decide (ev.uid ≠ "")))).created ∧
    (CLI.main_loop args existing events).updated
      = (CLI.main_loop args existing
          (events.filter (fun ev => decide (ev.uid ≠ "")))).updated ∧
    (CLI.main_loop args existing events).calls
      = (CLI.main_loop args existing
          (events.filter (fun ev => decide (ev.uid ≠ "")))).calls ∧
    (CLI.main_loop args existing events).skipped
      = (CLI.main_loop args existing
          (events.filter (fun ev => decide (ev.uid ≠ "")))).skipped
        + (events.filter (fun ev => decide (ev.uid = ""))).length ∧
    (∀ c ∈ (CLI.main_loop args existing events).calls,
      CLI.CliCall.uidOf c ≠ "") := by
  have h2 : CLI.main_loop args existing events
      = CLI.bumpSkip ((events.filter (fun ev => decide (ev.uid = ""))).length)
          (CLI.main_loop args existing
            (events.filter (fun ev => decide (ev.uid ≠ "")))) :=
    CLI.main_fold_skip_empty args existing events ⟨0, 0, 0, []⟩
  have hcalls : ∀ c ∈ (CLI.main_loop args existing events).calls,
      CLI.CliCall.uidOf c ≠ "" :=
    CLI.main_fold_calls_uid_nonempty args existing events
      ⟨0, 0, 0, []⟩ (by intro c hc; exact absurd hc (List.not_mem_nil c))
  refine ⟨?_, ?_, ?_, ?_, hcalls⟩
  · rw [h2]
    rfl
  · rw [h2]
    rfl
  · rw [h2]
    rfl
  · rw [h2]
    rfl

/-- Witness for C5 (amended): a mixed list with one empty-uid and one
normal event. -/
theorem C5_cli_empty_uid_skipped_witness :
    (CLI.main_loop ⟨"ICUID:", false, false, fun _ => false, fun _ => false⟩ []
        [⟨"", "X", "", "", none, none⟩, ⟨"e1", "S", "", "", none, none⟩]).created
      = (CLI.main_loop ⟨"ICUID:", false, false, fun _ => false, fun _ => false⟩ []
          ((([⟨"", "X", "", "", none, none⟩, ⟨"e1", "S", "", "", none, none⟩] :
              List CLI.CEvent)).filter (fun ev => decide (ev.uid ≠ "")))).created ∧
    (CLI.main_loop ⟨"ICUID:", false, false, fun _ => false, fun _ => false⟩ []
        [⟨"", "X", "", "", none, none⟩, ⟨"e1", "S", "", "", none, none⟩]).skipped
      = (CLI.main_loop ⟨"ICUID:", false, false, fun _ => false, fun _ => false⟩ []
          ((([⟨"", "X", "", "", none, none⟩, ⟨"e1", "S", "", "", none, none⟩] :
              List CLI.CEvent)).filter (fun ev => decide (ev.uid ≠ "")))).skipped
        + ((([⟨"", "X", "", "", none, none⟩, ⟨"e1", "S", "", "", none, none⟩] :
              List CLI.CEvent)).filter (fun ev => decide (ev.uid = ""))).length :=
  ⟨(C5_cli_empty_uid_skipped
      ⟨"ICUID:", false, false, fun _ => false, fun _ => false⟩ []
      [⟨"", "X", "", "", none, none⟩, ⟨"e1", "S", "", "", none, none⟩]).1,
   (C5_cli_empty_uid_skipped
      ⟨"ICUID:", false, false, fun _ => false, fun _ => false⟩ []
      [⟨"", "X", "", "", none, none⟩, ⟨"e1", "S", "", "", none, none⟩]).2.2.2.1⟩
